import Mathlib

/-!
Verification of the llm-export-importer normalization pipeline.

This file gives a shallow embedding, in Lean 4, of the parts of the
repository that the verified properties are about:

* the platform validators (`src/parsers/chatgpt.ts`, `claude.ts`,
  `gemini.ts`, `perplexity.ts`) over a model of JavaScript JSON values,
  including the places where a property access on `null`/`undefined`
  raises a `TypeError` (modelled with `Except`);
* the platform detector (`src/parsers/index.ts` and `BaseParser`);
* the adapters' `parse` functions and the shared `BaseParser` utilities
  (`normalizeTimestamp`, `cleanContent`, `generateId`);
* the project auto-detection (`autoDetectProjects` and its keyword
  extraction);
* a spec-modelled similarity engine (its source is not part of the
  repository snapshot).

JavaScript built-ins used by the source are modelled explicitly:
`Date` as integer epoch milliseconds with the ECMAScript time clip,
`toISOString` via the civil-calendar algorithm, base64 for
`Buffer.toString`, and a stable sort (`List.insertionSort`, which is
stable, standing in for `Array.prototype.sort`).
-/

/-- Model of a JavaScript JSON-ish runtime value.  `undefined` is the result of
a missing property; it cannot occur inside parsed JSON itself but arises
during evaluation.  Numbers are modelled as exact rationals (the source
uses IEEE doubles; none of the verified properties depend on rounding). -/
inductive Json where
  | undefined
  | null
  | bool (b : Bool)
  | num (q : ℚ)
  | str (s : String)
  | arr (elems : List Json)
  | obj (fields : List (String × Json))

/-- JavaScript truthiness of a value. -/
def Json.truthy : Json → Bool
  | .undefined => false
  | .null => false
  | .bool b => b
  | .num q => decide (q ≠ 0)
  | .str s => s ≠ ""
  | .arr _ => true
  | .obj _ => true

/-- Whether `typeof v === 'object'` holds (true for `null`, arrays and
objects). -/
def Json.typeofObject : Json → Bool
  | .null => true
  | .arr _ => true
  | .obj _ => true
  | _ => false

/-- Whether `Array.isArray(v)` holds. -/
def Json.isArray : Json → Bool
  | .arr _ => true
  | _ => false

/-- Whether `typeof v === 'string'` holds. -/
def Json.isStr : Json → Bool
  | .str _ => true
  | _ => false

/-- Whether the value is `null` or `undefined` (property access throws). -/
def Json.isNullish : Json → Bool
  | .null => true
  | .undefined => true
  | _ => false

/-- The element list of an array value (callers check `isArray` first,
mirroring the source's `Array.isArray` guards). -/
def Json.elems : Json → List Json
  | .arr xs => xs
  | _ => []

/-- Strict equality `v === "lit"` against a string literal. -/
def Json.strEq : Json → String → Bool
  | .str s, t => s == t
  | _, _ => false

/-- First-match association lookup of an object field (parsed JSON objects
have unique keys). -/
def lookupField (fields : List (String × Json)) (k : String) : Option Json :=
  (fields.find? (fun f => f.1 == k)).map (fun f => f.2)

/-- Total model of property lookup `v.k` on a value that is not
`null`/`undefined`: object fields, the `length` of arrays and strings,
and `undefined` on primitives.  On `null`/`undefined` it returns `undef`;
those cases are unreachable behind the source's truthiness guards and are
covered by `getProp` (which models the `TypeError`) elsewhere. -/
def propD : Json → String → Json
  | .obj fields, k => (lookupField fields k).getD .undefined
  | .arr xs, k => if k == "length" then .num (xs.length : ℚ) else .undefined
  | .str s, k => if k == "length" then .num (s.length : ℚ) else .undefined
  | _, _ => .undefined

/-- Property access `v.k` as it evaluates at runtime: a `TypeError` on
`null`/`undefined`, otherwise `propD`. -/
def getProp (v : Json) (k : String) : Except String Json :=
  match v with
  | .null => .error "TypeError"
  | .undefined => .error "TypeError"
  | _ => .ok (propD v k)

/-- Model of `Array.prototype.some` with a possibly-throwing callback
(short-circuits on the first `true`, propagates a thrown error). -/
def jsSome (p : Json → Except String Bool) : List Json → Except String Bool
  | [] => .ok false
  | x :: rest => do
    let b ← p x
    if b then pure true else jsSome p rest

/-- Platforms known to the repository, plus `unknown`. -/
inductive Platform where
  | chatgpt
  | claude
  | gemini
  | perplexity
  | unknown
deriving Repr, DecidableEq

/-- The `ParserValidationResult` record of `src/parsers/base.ts`. -/
structure ParserValidationResult where
  isValid : Bool
  platform : Platform
  confidence : ℚ
  issues : List String
deriving Repr, DecidableEq

/-- String conversion used by template literals and `Array.prototype.join`
(`String(v)`); numbers only occur with small decimal denominators in this
development, other rationals are printed as `num/den`. -/
def jsNumToString (q : ℚ) : String :=
  if q.den = 1 then Int.repr q.num
  else Int.repr q.num ++ "/" ++ Nat.repr q.den

mutual

/-- String conversion `String(v)` of a JavaScript value. -/
def jsDisplay : Json → String
  | .undefined => "undefined"
  | .null => "null"
  | .bool b => if b then "true" else "false"
  | .num q => jsNumToString q
  | .str s => s
  | .arr xs => jsDisplayElems xs
  | .obj _ => "[object Object]"

/-- Elements of an array joined with commas; `null`/`undefined` elements
render as the empty string (as in `Array.prototype.join`). -/
def jsDisplayElems : List Json → String
  | [] => ""
  | [x] => if x.isNullish then "" else jsDisplay x
  | x :: xs =>
    (if x.isNullish then "" else jsDisplay x) ++ "," ++ jsDisplayElems xs

end

/-- The JavaScript idiom `v || d` (the left value if truthy, else `d`). -/
def jsOr (v d : Json) : Json := if v.truthy then v else d

/-! ### ChatGPT validator (`ChatGPTParser.validate`) -/

/-- The `some` callback `conv => conv.mapping && typeof conv.mapping ===
'object'` (throws on a `null` entry). -/
def chatgptConvHasMapping (conv : Json) : Except String Bool := do
  let m ← getProp conv "mapping"
  pure (m.truthy && m.typeofObject)

/-- Tail of `ChatGPTParser.validate` after the modern-format branch: the
legacy `mapping` check, the ChatGPT-like check, and the final
no-indicators result. -/
def chatgptValidateTail (data : Json) (issues : List String) :
    Except String ParserValidationResult := do
  let mapping ← getProp data "mapping"
  if mapping.truthy && mapping.typeofObject then
    pure ⟨true, .chatgpt, mkRat 9 10, []⟩
  else do
    let title ← getProp data "title"
    let createTime ← getProp data "create_time"
    if title.truthy || createTime.truthy then
      pure ⟨false, .chatgpt, mkRat 3 10,
        issues ++ ["Some ChatGPT-like properties found but missing mapping structure"]⟩
    else
      pure ⟨false, .unknown, 0, ["No ChatGPT format indicators found"]⟩

/-- Embedding of `ChatGPTParser.validate` (`src/parsers/chatgpt.ts`).
Note the confidence values are the constants 0.95 / 0.9 / 0.3 / 0, not a
fraction of valid entries. -/
def chatgptValidate (data : Json) : Except String ParserValidationResult :=
  if !(data.truthy && data.typeofObject) then
    pure ⟨false, .unknown, 0, ["Invalid JSON data"]⟩
  else do
    let conversations ← getProp data "conversations"
    if conversations.truthy && conversations.isArray then do
      let hasValid ← jsSome chatgptConvHasMapping conversations.elems
      if hasValid then
        pure ⟨true, .chatgpt, mkRat 95 100, []⟩
      else
        chatgptValidateTail data
          ["Conversations array found but no valid mapping structures"]
    else
      chatgptValidateTail data []

/-! ### Claude validator (`ClaudeParser.validate`) -/

/-- Embedding of `ClaudeParser.isValidClaudeMessage` (total: every property
access is behind the `msg && typeof msg === 'object'` guard). -/
def isValidClaudeMessage (msg : Json) : Bool :=
  msg.truthy && msg.typeofObject &&
  ((propD msg "role").strEq "human" || (propD msg "role").strEq "assistant") &&
  (propD msg "content").isStr &&
  (propD msg "timestamp").isStr

/-- Embedding of `ClaudeParser.isValidClaudeConversation`. -/
def isValidClaudeConversation (conv : Json) : Bool :=
  conv.truthy && conv.typeofObject &&
  (propD conv "id").isStr &&
  (propD conv "name").isStr &&
  (propD conv "created_at").isStr &&
  (propD conv "messages").isArray &&
  (propD conv "messages").elems.all isValidClaudeMessage

/-- The `some` callback of the new-format check: `conv.uuid && conv.name &&
conv.chat_messages && Array.isArray(conv.chat_messages)` with JavaScript
short-circuiting (throws on a `null` entry at `conv.uuid`). -/
def claudeNewConvCheck (conv : Json) : Except String Bool := do
  let u ← getProp conv "uuid"
  if !u.truthy then pure false
  else do
    let n ← getProp conv "name"
    if !n.truthy then pure false
    else do
      let cm ← getProp conv "chat_messages"
      pure (cm.truthy && cm.isArray)

/-- The issue string pushed for an invalid entry:
`Invalid conversation structure: ` + (`conv.id || 'unknown ID'`). -/
def claudeIssueOf (conv : Json) : String :=
  "Invalid conversation structure: " ++
    jsDisplay (jsOr (propD conv "id") (.str "unknown ID"))

/-- The validation loop over `data.conversations`: counts valid entries and
collects the issue strings of invalid ones.  Building the issue string
reads `conv.id`, which throws a `TypeError` when the invalid entry is
`null` (this is the loop of `src/parsers/claude.ts`, lines 110-116). -/
def claudeScanEntries : List Json → Except String (Nat × List String)
  | [] => .ok (0, [])
  | conv :: rest =>
    if isValidClaudeConversation conv then do
      let (v, iss) ← claudeScanEntries rest
      pure (v + 1, iss)
    else do
      let idv ← getProp conv "id"
      let msg := "Invalid conversation structure: " ++
        jsDisplay (jsOr idv (.str "unknown ID"))
      let (v, iss) ← claudeScanEntries rest
      pure (v, msg :: iss)

/-- Legacy-format part of `ClaudeParser.validate`: ratio confidence
`validConversations / totalConversations`, flat 0.2 when no entry is
valid, `isValid` iff the ratio exceeds 0.5. -/
def claudeValidateLegacy (data : Json) (issues₀ : List String) :
    Except String ParserValidationResult := do
  let conversations ← getProp data "conversations"
  if !(conversations.truthy && conversations.isArray) then
    pure ⟨false, .unknown, 0, ["Missing or invalid conversations array"]⟩
  else do
    let (validConversations, entryIssues) ← claudeScanEntries conversations.elems
    let issues := issues₀ ++ entryIssues
    let totalConversations := conversations.elems.length
    if validConversations = 0 then
      pure ⟨false, .claude, mkRat 2 10,
        "No valid Claude conversations found" :: issues⟩
    else
      let confidence := mkRat validConversations totalConversations
      pure ⟨decide (mkRat 1 2 < confidence), .claude, confidence,
        if confidence < 1 then issues else []⟩

/-- Embedding of `ClaudeParser.validate` (`src/parsers/claude.ts`). -/
def claudeValidate (data : Json) : Except String ParserValidationResult :=
  if !(data.truthy && data.typeofObject) then
    pure ⟨false, .unknown, 0, ["Invalid JSON data"]⟩
  else if data.isArray then do
    let hasValidNew ← jsSome claudeNewConvCheck data.elems
    if hasValidNew then
      pure ⟨true, .claude, mkRat 95 100, []⟩
    else
      claudeValidateLegacy data
        ["Array format found but no valid Claude conversation structures"]
  else
    claudeValidateLegacy data []

/-! ### Gemini validator (`GeminiParser.validate`) -/

/-- Embedding of `GeminiParser.isValidGeminiMessage`. -/
def isValidGeminiMessage (msg : Json) : Bool :=
  msg.truthy && msg.typeofObject &&
  ((propD msg "author").strEq "user" || (propD msg "author").strEq "model") &&
  (propD msg "text").isStr &&
  (propD msg "timestamp").isStr

/-- Embedding of `GeminiParser.isValidGeminiChat`. -/
def isValidGeminiChat (chat : Json) : Bool :=
  chat.truthy && chat.typeofObject &&
  (propD chat "title").isStr &&
  (propD chat "create_time").isStr &&
  (propD chat "messages").isArray &&
  (propD chat "messages").elems.all isValidGeminiMessage

/-- The validation loop over `data.chats` (reads `chat.title` for the issue
string of an invalid entry, throwing on `null`). -/
def geminiScanEntries : List Json → Except String (Nat × List String)
  | [] => .ok (0, [])
  | chat :: rest =>
    if isValidGeminiChat chat then do
      let (v, iss) ← geminiScanEntries rest
      pure (v + 1, iss)
    else do
      let titlev ← getProp chat "title"
      let msg := "Invalid chat structure: " ++
        jsDisplay (jsOr titlev (.str "unknown title"))
      let (v, iss) ← geminiScanEntries rest
      pure (v, msg :: iss)

/-- Embedding of `GeminiParser.validate` (`src/parsers/gemini.ts`). -/
def geminiValidate (data : Json) : Except String ParserValidationResult :=
  if !(data.truthy && data.typeofObject) then
    pure ⟨false, .unknown, 0, ["Invalid JSON data"]⟩
  else do
    let chats ← getProp data "chats"
    if !(chats.truthy && chats.isArray) then
      pure ⟨false, .unknown, 0, ["Missing or invalid chats array"]⟩
    else do
      let (validChats, entryIssues) ← geminiScanEntries chats.elems
      let totalChats := chats.elems.length
      if validChats = 0 then
        pure ⟨false, .gemini, mkRat 2 10,
          "No valid Gemini chats found" :: entryIssues⟩
      else
        let confidence := mkRat validChats totalChats
        pure ⟨decide (mkRat 1 2 < confidence), .gemini, confidence,
          if confidence < 1 then entryIssues else []⟩

/-! ### Perplexity validator (`PerplexityParser.validate`) -/

/-- Embedding of `PerplexityParser.isValidPerplexityMessage`. -/
def isValidPerplexityMessage (msg : Json) : Bool :=
  msg.truthy && msg.typeofObject &&
  ((propD msg "role").strEq "user" || (propD msg "role").strEq "assistant") &&
  (propD msg "content").isStr &&
  (propD msg "created_at").isStr

/-- Embedding of `PerplexityParser.isValidPerplexityThread`. -/
def isValidPerplexityThread (thread : Json) : Bool :=
  thread.truthy && thread.typeofObject &&
  (propD thread "title").isStr &&
  (propD thread "created_at").isStr &&
  (propD thread "messages").isArray &&
  (propD thread "messages").elems.all isValidPerplexityMessage

/-- The validation loop over `data.threads` (reads `thread.title` for the
issue string of an invalid entry, throwing on `null`). -/
def perplexityScanEntries : List Json → Except String (Nat × List String)
  | [] => .ok (0, [])
  | thread :: rest =>
    if isValidPerplexityThread thread then do
      let (v, iss) ← perplexityScanEntries rest
      pure (v + 1, iss)
    else do
      let titlev ← getProp thread "title"
      let msg := "Invalid thread structure: " ++
        jsDisplay (jsOr titlev (.str "unknown title"))
      let (v, iss) ← perplexityScanEntries rest
      pure (v, msg :: iss)

/-- Embedding of `PerplexityParser.validate` (`src/parsers/perplexity.ts`,
concatenated into `src/parsers/claude.ts` in this snapshot). -/
def perplexityValidate (data : Json) : Except String ParserValidationResult :=
  if !(data.truthy && data.typeofObject) then
    pure ⟨false, .unknown, 0, ["Invalid JSON data"]⟩
  else do
    let threads ← getProp data "threads"
    if !(threads.truthy && threads.isArray) then
      pure ⟨false, .unknown, 0, ["Missing or invalid threads array"]⟩
    else do
      let (validThreads, entryIssues) ← perplexityScanEntries threads.elems
      let totalThreads := threads.elems.length
      if validThreads = 0 then
        pure ⟨false, .perplexity, mkRat 2 10,
          "No valid Perplexity threads found" :: entryIssues⟩
      else
        let confidence := mkRat validThreads totalThreads
        pure ⟨decide (mkRat 1 2 < confidence), .perplexity, confidence,
          if confidence < 1 then entryIssues else []⟩

/-! ### Platform detector -/

/-- Embedding of the static `BaseParser.detectPlatform` structural sniff
(`src/parsers/base.ts`): presence of a `mapping` object or a
`conversations`/`chats`/`threads` array, else unknown. -/
def baseDetectPlatform (data : Json) : Except String ParserValidationResult := do
  let mapping ← getProp data "mapping"
  if mapping.truthy && mapping.typeofObject then
    pure ⟨true, .chatgpt, mkRat 9 10, []⟩
  else do
    let conversations ← getProp data "conversations"
    if conversations.truthy && conversations.isArray then
      pure ⟨true, .claude, mkRat 9 10, []⟩
    else do
      let chats ← getProp data "chats"
      if chats.truthy && chats.isArray then
        pure ⟨true, .gemini, mkRat 9 10, []⟩
      else do
        let threads ← getProp data "threads"
        if threads.truthy && threads.isArray then
          pure ⟨true, .perplexity, mkRat 9 10, []⟩
        else
          pure ⟨false, .unknown, 0,
            ["Unknown export format - no recognizable structure found"]⟩

/-- Embedding of `detectPlatform` (`src/parsers/index.ts`): each registered
validator in order ChatGPT, Claude, Gemini, Perplexity; first result with
`isValid && confidence > 0.7` wins, otherwise the base structural sniff. -/
def detectPlatform (data : Json) : Except String ParserValidationResult := do
  let r1 ← chatgptValidate data
  if r1.isValid && decide (mkRat 7 10 < r1.confidence) then pure r1
  else do
    let r2 ← claudeValidate data
    if r2.isValid && decide (mkRat 7 10 < r2.confidence) then pure r2
    else do
      let r3 ← geminiValidate data
      if r3.isValid && decide (mkRat 7 10 < r3.confidence) then pure r3
      else do
        let r4 ← perplexityValidate data
        if r4.isValid && decide (mkRat 7 10 < r4.confidence) then pure r4
        else
          baseDetectPlatform data

/-! ### Model of the JavaScript `Date` built-in

`Date` holds an integer count of milliseconds since the Unix epoch; a
value is valid iff its magnitude is at most 8.64e15 (ECMAScript
`TimeClip`).  `toISOString` renders it through the proleptic Gregorian
calendar; on an invalid date it throws a `RangeError`. -/

/-- Left-pad the decimal representation of `n` with zeros to width `w`. -/
def padNum (w : Nat) (n : Nat) : String :=
  let s := Nat.repr n
  String.mk (List.replicate (w - s.length) (Char.ofNat 48)) ++ s

/-- The civil (year, month, day) of a day count since 1970-01-01
(Gregorian, days may be negative). -/
def civilFromDays (ed : Int) : Int × Nat × Nat :=
  let z := ed + 719468
  let era := Int.fdiv z 146097
  let doe := (z - era * 146097).toNat
  let yoe := (doe - doe / 1460 + doe / 36524 - doe / 146096) / 365
  let doy := doe - (365 * yoe + yoe / 4 - yoe / 100)
  let mp := (5 * doy + 2) / 153
  let d := doy - (153 * mp + 2) / 5 + 1
  let m := if mp < 10 then mp + 3 else mp - 9
  ((yoe : Int) + era * 400 + (if m ≤ 2 then 1 else 0), m, d)

/-- The day count since 1970-01-01 of a civil (year, month, day). -/
def daysFromCivil (y : Int) (m d : Nat) : Int :=
  let yAdj := y - (if m ≤ 2 then 1 else 0)
  let era := Int.fdiv yAdj 400
  let yoe := (yAdj - era * 400).toNat
  let doy := (153 * (if 2 < m then m - 3 else m + 9) + 2) / 5 + d - 1
  let doe := yoe * 365 + yoe / 4 - yoe / 100 + doy
  era * 146097 + (doe : Int) - 719468

/-- Model of `Date.prototype.toISOString` on a valid date value
(`YYYY-MM-DDTHH:mm:ss.sssZ`; years outside 0..9999 use the six-digit
expanded form as in ECMAScript). -/
def isoOfMs (ms : Int) : String :=
  let ed := Int.fdiv ms 86400000
  let msod := (Int.fmod ms 86400000).toNat
  let hh := msod / 3600000
  let mi := msod / 60000 % 60
  let ss := msod / 1000 % 60
  let mmm := msod % 1000
  let (y, m, d) := civilFromDays ed
  let yearStr :=
    if 0 ≤ y && y ≤ 9999 then padNum 4 y.toNat
    else (if y < 0 then "-" else "+") ++ padNum 6 y.natAbs
  yearStr ++ "-" ++ padNum 2 m ++ "-" ++ padNum 2 d ++ "T" ++
    padNum 2 hh ++ ":" ++ padNum 2 mi ++ ":" ++ padNum 2 ss ++ "." ++
    padNum 3 mmm ++ "Z"

/-- ECMAScript `TimeClip`: `none` (an invalid date) beyond ±8.64e15 ms,
otherwise truncation toward zero to an integer. -/
def timeClip (q : ℚ) : Option Int :=
  if q < mkRat (-8640000000000000) 1 || mkRat 8640000000000000 1 < q then none
  else some (Int.tdiv q.num (q.den : Int))

/-- Days in a Gregorian month. -/
def daysInMonth (y : Int) (m : Nat) : Nat :=
  if m = 2 then
    if Int.fmod y 4 = 0 && (Int.fmod y 100 ≠ 0 || Int.fmod y 400 = 0) then 29 else 28
  else if m = 4 || m = 6 || m = 9 || m = 11 then 30
  else 31

/-- Decimal digit of a character, if any. -/
def digit? (c : Char) : Option Nat :=
  if '0' ≤ c && c ≤ '9' then some (c.toNat - 48) else none

/-- Read `w` decimal digits from the front of a character list. -/
def readDigits : Nat → List Char → Option (Nat × List Char)
  | 0, cs => some (0, cs)
  | w + 1, c :: cs => do
    let d ← digit? c
    let (n, rest) ← readDigits w cs
    pure (d * 10 ^ w + n, rest)
  | _ + 1, [] => none

/-- Model of `Date.parse` restricted to the ECMAScript Date Time String
Format with UTC designator: `YYYY-MM-DD`, optionally followed by
`THH:mm:ssZ` or `THH:mm:ss.sssZ`.  Date-only forms are UTC.  Forms the
model does not cover (including local-time date-times without `Z`, and
the many implementation-defined fallback formats) map to `none`
(an invalid date). -/
def parseDateString (s : String) : Option Int := do
  let (y, r1) ← readDigits 4 s.toList
  let r2 ← if r1.head? = some '-' then some r1.tail else none
  let (mo, r3) ← readDigits 2 r2
  let r4 ← if r3.head? = some '-' then some r3.tail else none
  let (d, r5) ← readDigits 2 r4
  if !(1 ≤ mo && mo ≤ 12 && 1 ≤ d && d ≤ daysInMonth (y : Int) mo) then none
  else
    let dayMs : Int := daysFromCivil (y : Int) mo d * 86400000
    match r5 with
    | [] => some dayMs
    | 'T' :: r6 => do
      let (hh, r7) ← readDigits 2 r6
      let r8 ← if r7.head? = some ':' then some r7.tail else none
      let (mi, r9) ← readDigits 2 r8
      let r10 ← if r9.head? = some ':' then some r9.tail else none
      let (ss, r11) ← readDigits 2 r10
      if !(hh ≤ 23 && mi ≤ 59 && ss ≤ 59) then none
      else
        let timeMs : Int := (hh * 3600000 + mi * 60000 + ss * 1000 : Nat)
        match r11 with
        | ['Z'] => some (dayMs + timeMs)
        | '.' :: r12 => do
          let (f, r13) ← readDigits 3 r12
          if r13 = ['Z'] then some (dayMs + timeMs + (f : Nat)) else none
        | _ => none
    | _ => none

/-- The milliseconds value of `new Date(v)` for a non-number argument (the
`try` branch of `normalizeTimestamp`): strings via `Date.parse`, `null`
and booleans via numeric coercion, objects and `undefined` are invalid. -/
def jsDateMsFromValue : Json → Option Int
  | .str s => parseDateString s
  | .null => some 0
  | .bool b => some (if b then 1 else 0)
  | .undefined => none
  | .num q => timeClip q
  | .arr xs => parseDateString (jsDisplayElems xs)
  | .obj _ => none

/-- Embedding of `BaseParser.normalizeTimestamp`.  A number is treated as
epoch seconds: `new Date(timestamp * 1000).toISOString()` is evaluated
OUTSIDE the `try`, so an out-of-range number makes `toISOString` throw a
`RangeError`.  Every other input is wrapped in `try { new
Date(t).toISOString() } catch { new Date().toISOString() }`, which never
throws and falls back to the current time `nowMs`.  (The multiplication
`timestamp * 1000` is written on the numerator to stay kernel-computable;
`mkRat (q.num * 1000) q.den` equals `q * 1000`.) -/
def normalizeTimestamp (nowMs : Int) (timestamp : Json) : Except String String :=
  match timestamp with
  | .num q =>
    match timeClip (mkRat (q.num * 1000) q.den) with
    | some ms => .ok (isoOfMs ms)
    | none => .error "RangeError: Invalid time value"
  | v =>
    .ok (match jsDateMsFromValue v with
         | some ms => isoOfMs ms
         | none => isoOfMs nowMs)

/-! ### Shared `BaseParser` utilities -/

/-- JavaScript / Lean whitespace for `String.prototype.trim` (ASCII
subset). -/
def isJsWhitespace (c : Char) : Bool :=
  c.toNat = 32 || (9 ≤ c.toNat && c.toNat ≤ 13)

/-- Model of `String.prototype.trim` (implemented over the character list
so that it evaluates inside the kernel). -/
def jsTrim (s : String) : String :=
  String.mk (((s.toList.dropWhile isJsWhitespace).reverse.dropWhile
    isJsWhitespace).reverse)

/-- Embedding of `BaseParser.cleanContent`: an array is joined with
newlines and trimmed; a string is trimmed; `null`/`undefined` yield `""`
(`content?.trim() || ''`); any other value would throw
(`content.trim is not a function`). -/
def cleanContent : Json → Except String String
  | .arr xs => .ok (jsTrim (String.intercalate "\n" (xs.map
      (fun x => if x.isNullish then "" else jsDisplay x))))
  | .str s => .ok (jsTrim s)
  | .null => .ok ""
  | .undefined => .ok ""
  | _ => .error "TypeError"

/-- UTF-8 bytes of a string (for `Buffer.from`). -/
def utf8Bytes (s : String) : List Nat :=
  s.toList.flatMap (fun c =>
    let n := c.toNat
    if n < 128 then [n]
    else if n < 2048 then [192 + n / 64, 128 + n % 64]
    else if n < 65536 then [224 + n / 4096, 128 + n / 64 % 64, 128 + n % 64]
    else [240 + n / 262144, 128 + n / 4096 % 64, 128 + n / 64 % 64, 128 + n % 64])

/-- The base64 digit alphabet. -/
def base64Digit (n : Nat) : Char :=
  if n < 26 then Char.ofNat (65 + n)
  else if n < 52 then Char.ofNat (97 + (n - 26))
  else if n < 62 then Char.ofNat (48 + (n - 52))
  else if n = 62 then '+'
  else '/'

/-- Base64 encoding of a byte list (for `Buffer.toString('base64')`). -/
def base64Encode : List Nat → String
  | [] => ""
  | [a] =>
    String.mk [base64Digit (a / 4), base64Digit (a % 4 * 16)] ++ "=="
  | [a, b] =>
    String.mk [base64Digit (a / 4), base64Digit (a % 4 * 16 + b / 16),
      base64Digit (b % 16 * 4)] ++ "="
  | a :: b :: c :: rest =>
    String.mk [base64Digit (a / 4), base64Digit (a % 4 * 16 + b / 16),
      base64Digit (b % 16 * 4 + c / 64), base64Digit (c % 64)] ++
      base64Encode rest

/-- Embedding of `BaseParser.generateId`: the first 12 characters of the
base64 of `title + '-' + timestamp`. -/
def generateId (title : String) (timestamp : String) : String :=
  String.mk ((base64Encode (utf8Bytes (title ++ "-" ++ timestamp))).toList.take 12)

/-! ### The canonical conversation model -/

/-- The normalized message role union
`'user' | 'assistant' | 'human' | 'model'`. -/
inductive Role where
  | user
  | assistant
  | human
  | model
deriving Repr, DecidableEq

/-- A normalized message of `ConversationData`. -/
structure NormalizedMessage where
  role : Role
  content : String
  timestamp : String
deriving Repr, DecidableEq

/-- The canonical `ConversationData` record produced by every adapter. -/
structure ConversationData where
  id : String
  title : String
  messages : List NormalizedMessage
  platform : String
deriving Repr, DecidableEq

/-- The `dateRange` of `ParseResult.metadata`. -/
structure DateRange where
  earliest : String
  latest : String
deriving Repr, DecidableEq

/-- The `metadata` of a `ParseResult`. -/
structure ParseMetadata where
  totalConversations : Nat
  dateRange : DateRange
  platform : String
  exportVersion : String
deriving Repr, DecidableEq

/-- The `ParseResult` record of `src/parsers/base.ts`. -/
structure ParseResult where
  conversations : List ConversationData
  metadata : ParseMetadata
deriving Repr, DecidableEq

/-- The string content of a string value (validated call sites); other
values render through `String(v)`. -/
def jsStrD (v : Json) : String :=
  match v with
  | .str s => s
  | v => jsDisplay v

/-- The JavaScript idiom `s[0] || d` on sorted timestamp lists: an absent
or empty-string entry falls back to `d`. -/
def jsStrOr (o : Option String) (d : String) : String :=
  match o with
  | some s => if s = "" then d else s
  | none => d

/-- Comparison backing the argument-less `Array.prototype.sort()` on
strings (code-unit lexicographic; code points coincide for the ASCII
timestamps produced here), implemented over character lists so that it
evaluates in the kernel. -/
def strCodeLe (a b : String) : Prop :=
  (a.toList.map Char.toNat) ≤ (b.toList.map Char.toNat)

instance : DecidableRel strCodeLe := fun a b => by
  unfold strCodeLe; infer_instance

/-- The sorted flat list of message timestamps used for
`metadata.dateRange` (a stable sort models `Array.prototype.sort`). -/
def sortedTimestamps (convs : List ConversationData) : List String :=
  List.insertionSort strCodeLe
    (convs.flatMap (fun conv => conv.messages.map (fun m => m.timestamp)))

/-- The `dateRange` computed by every adapter:
`sorted[0] || now` and `sorted[len-1] || now`. -/
def dateRangeOf (nowMs : Int) (convs : List ConversationData) : DateRange :=
  let sorted := sortedTimestamps convs
  ⟨jsStrOr sorted.head? (isoOfMs nowMs), jsStrOr sorted.getLast? (isoOfMs nowMs)⟩

/-- ASCII lower-casing of a character (`String.prototype.toLowerCase`;
the inputs of this development are ASCII). -/
def asciiLowerChar (c : Char) : Char :=
  if 'A' ≤ c && c ≤ 'Z' then Char.ofNat (c.toNat + 32) else c

/-- ASCII lower-casing of a string. -/
def asciiLower (s : String) : String :=
  String.mk (s.toList.map asciiLowerChar)

/-- The JavaScript comparison `v > 0`, at the types it is applied to here
(`length` lookups, which produce a number or `undefined`; `undefined > 0`
is false). -/
def jsGtZero : Json → Bool
  | .num q => decide (0 < q)
  | _ => false

/-- The `.toString()` method call (throws on `null`/`undefined`). -/
def jsToStringMethod (v : Json) : Except String String :=
  match v with
  | .null => .error "TypeError"
  | .undefined => .error "TypeError"
  | v => .ok (jsDisplay v)

/-- Model of `Object.entries` (object fields; index/character entries for
arrays and strings; empty for other primitives; throws on
`null`/`undefined`). -/
def jsEntries (v : Json) : Except String (List (String × Json)) :=
  match v with
  | .obj fields => .ok fields
  | .arr xs => .ok (xs.enum.map (fun p => (Nat.repr p.1, p.2)))
  | .str s => .ok (s.toList.enum.map
      (fun p => (Nat.repr p.1, Json.str (String.mk [p.2]))))
  | .null => .error "TypeError"
  | .undefined => .error "TypeError"
  | _ => .ok []

/-! ### ChatGPT adapter parse (`ChatGPTParser.parse`) -/

/-- Embedding of `ChatGPTParser.normalizeRole`. -/
def chatgptRoleOf (role : String) : Role :=
  match asciiLower role with
  | "user" => .user
  | "assistant" => .assistant
  | "system" => .assistant
  | _ => .user

/-- The loop-body condition of `extractMessagesFromMapping`:
`node.message && node.message.content && node.message.content.parts.length
> 0`, returning the message to push when it holds.  Note the criterion is
the LENGTH of the `parts` array, not the textual content. -/
def chatgptNodeMessage (node : Json) : Except String (Option Json) := do
  let m ← getProp node "message"
  if !m.truthy then pure none
  else do
    let c ← getProp m "content"
    if !c.truthy then pure none
    else do
      let parts ← getProp c "parts"
      let len ← getProp parts "length"
      pure (if jsGtZero len then some m else none)

/-- The messages collected from the mapping entries, in entry order. -/
def chatgptCollect : List (String × Json) → Except String (List Json)
  | [] => .ok []
  | (_, node) :: rest => do
    let m? ← chatgptNodeMessage node
    let more ← chatgptCollect rest
    pure (match m? with
          | some m => m :: more
          | none => more)

/-- The sort key `create_time` of an extracted message.  The source's
comparator `a.create_time - b.create_time` is only well behaved on
numbers (on anything else it yields `NaN` and the sort order is
unspecified); the model defaults non-numbers to 0, and the sortedness
theorem is stated under an all-numeric hypothesis. -/
def createTimeKey (m : Json) : ℚ :=
  match propD m "create_time" with
  | .num q => q
  | _ => 0

/-- The comparison backing the `create_time` sort. -/
def createTimeLe (a b : Json) : Prop := createTimeKey a ≤ createTimeKey b

instance : DecidableRel createTimeLe := fun a b => by
  unfold createTimeLe; infer_instance

/-- Embedding of `ChatGPTParser.extractMessagesFromMapping`: collect every
node whose message passes the condition, then sort by creation time (a
stable sort models `Array.prototype.sort`). -/
def chatgptExtractMessages (mapping : Json) : Except String (List Json) := do
  let entries ← jsEntries mapping
  let msgs ← chatgptCollect entries
  pure (List.insertionSort createTimeLe msgs)

/-- Normalization of one extracted ChatGPT message (`role`, flattened
`content.parts`, normalized `create_time`). -/
def chatgptNormMessage (nowMs : Int) (msg : Json) : Except String NormalizedMessage := do
  let author ← getProp msg "author"
  let rolev ← getProp author "role"
  let role ← match rolev with
    | .str s => pure (chatgptRoleOf s)
    | _ => Except.error "TypeError"
  let contentv ← getProp msg "content"
  let parts ← getProp contentv "parts"
  let content ← cleanContent parts
  let ct ← getProp msg "create_time"
  let ts ← normalizeTimestamp nowMs ct
  pure ⟨role, content, ts⟩

/-- Embedding of `ChatGPTParser.parseConversation`. -/
def chatgptParseConversation (nowMs : Int) (conversation : Json) :
    Except String ConversationData := do
  let mapping ← getProp conversation "mapping"
  let msgs ← chatgptExtractMessages mapping
  let convId ← getProp conversation "conversation_id"
  let id ←
    if convId.truthy then pure (jsStrD convId)
    else do
      let titlev ← getProp conversation "title"
      let ct ← getProp conversation "create_time"
      let ctStr ← jsToStringMethod ct
      pure (generateId (jsDisplay titlev) ctStr)
  let titlev ← getProp conversation "title"
  let messages ← msgs.mapM (chatgptNormMessage nowMs)
  pure ⟨id, jsStrD (jsOr titlev (.str "Untitled Conversation")), messages, "chatgpt"⟩

/-- Embedding of `ChatGPTParser.detectExportVersion`. -/
def chatgptDetectExportVersion (data : Json) : Except String String := do
  let conversations ← getProp data "conversations"
  if conversations.truthy && conversations.isArray then pure "2024-06"
  else do
    let mapping ← getProp data "mapping"
    let titlev ← getProp data "title"
    if mapping.truthy && titlev.truthy then pure "2023-12"
    else pure "unknown"

/-- Embedding of the conversation computation of `ChatGPTParser.parse`:
the modern multi-conversation branch, the legacy single-`mapping` branch
(with title and `Date.now() / 1000` creation-time defaults), and the
structural-error throw.  `nowMs` stands for the wall clock read by
`Date.now()` / `new Date()`. -/
def chatgptRawConversations (nowMs : Int) (data : Json) :
    Except String (List ConversationData) := do
  let conversations ← getProp data "conversations"
  if conversations.truthy && conversations.isArray then
    conversations.elems.mapM (chatgptParseConversation nowMs)
  else do
    let mapping ← getProp data "mapping"
    if mapping.truthy then do
      let titlev ← getProp data "title"
      let ctv ← getProp data "create_time"
      let singleConv := Json.obj
        [("title", jsOr titlev (.str "Untitled Conversation")),
         ("create_time", if ctv.truthy then ctv else .num (mkRat nowMs 1000)),
         ("mapping", mapping)]
      let c ← chatgptParseConversation nowMs singleConv
      pure [c]
    else
      Except.error "No valid ChatGPT conversation data found"

/-- The tail of `ChatGPTParser.parse`: metadata and the empty-conversation
filter over the raw conversation list. -/
def chatgptParse (nowMs : Int) (data : Json) : Except String ParseResult := do
  let convs ← chatgptRawConversations nowMs data
  let ver ← chatgptDetectExportVersion data
  pure ⟨convs.filter (fun conv => decide (0 < conv.messages.length)),
    ⟨convs.length, dateRangeOf nowMs convs, "chatgpt", ver⟩⟩

/-! ### Claude adapter parse (`ClaudeParser.parse`) -/

/-- Embedding of `ClaudeParser.normalizeRole`. -/
def claudeNormalizeRole (role : String) : Role :=
  match role with
  | "human" => .human
  | "assistant" => .assistant
  | _ => .user

/-- Embedding of `ClaudeParser.isValidNewClaudeMessage`. -/
def isValidNewClaudeMessage (msg : Json) : Bool :=
  msg.truthy && msg.typeofObject &&
  (propD msg "uuid").isStr &&
  ((propD msg "sender").strEq "human" || (propD msg "sender").strEq "assistant") &&
  (propD msg "text").isStr &&
  (propD msg "content").isArray &&
  (propD msg "created_at").isStr

/-- Embedding of `ClaudeParser.isValidNewClaudeConversation`. -/
def isValidNewClaudeConversation (conv : Json) : Bool :=
  conv.truthy && conv.typeofObject &&
  (propD conv "uuid").isStr &&
  (propD conv "name").isStr &&
  (propD conv "created_at").isStr &&
  (propD conv "chat_messages").isArray &&
  (propD conv "chat_messages").elems.all isValidNewClaudeMessage

/-- The filter-map `msg.content.filter(item => item.type === 'text' &&
item.text).map(item => item.text)` (reads `item.type`, so a `null` item
throws). -/
def claudeCollectTextItems : List Json → Except String (List Json)
  | [] => .ok []
  | item :: rest => do
    let ty ← getProp item "type"
    let keep ←
      if ty.strEq "text" then do
        let tx ← getProp item "text"
        pure (if tx.truthy then some tx else none)
      else pure (none : Option Json)
    let more ← claudeCollectTextItems rest
    pure (match keep with
          | some tx => tx :: more
          | none => more)

/-- Embedding of `ClaudeParser.extractNewMessageContent`: the `text` field
when non-empty after trimming, else the newline-join of the `content`
items of type `text`. -/
def extractNewMessageContent (msg : Json) : Except String String := do
  let t := propD msg "text"
  if t.truthy && decide (0 < (jsTrim (jsStrD t)).length) then
    cleanContent t
  else do
    let textItems ← claudeCollectTextItems (propD msg "content").elems
    cleanContent (Json.str (String.intercalate "\n" (textItems.map jsStrD)))

/-- Embedding of `ClaudeParser.parseConversation` (legacy format; the
conversation has passed `isValidClaudeConversation`). -/
def claudeParseConversation (nowMs : Int) (conv : Json) :
    Except String ConversationData := do
  let messages ← (propD conv "messages").elems.mapM (fun msg => do
    let content ← cleanContent (propD msg "content")
    let ts ← normalizeTimestamp nowMs (propD msg "timestamp")
    pure (⟨claudeNormalizeRole (jsStrD (propD msg "role")), content, ts⟩ :
      NormalizedMessage))
  pure ⟨jsStrD (propD conv "id"),
    jsStrD (jsOr (propD conv "name") (.str "Untitled Conversation")),
    messages, "claude"⟩

/-- Embedding of `ClaudeParser.parseNewConversation` (current format; the
conversation has passed `isValidNewClaudeConversation`). -/
def claudeParseNewConversation (nowMs : Int) (conv : Json) :
    Except String ConversationData := do
  let messages ← (propD conv "chat_messages").elems.mapM (fun msg => do
    let content ← extractNewMessageContent msg
    let ts ← normalizeTimestamp nowMs (propD msg "created_at")
    pure (⟨claudeNormalizeRole (jsStrD (propD msg "sender")), content, ts⟩ :
      NormalizedMessage))
  pure ⟨jsStrD (propD conv "uuid"),
    jsStrD (jsOr (propD conv "name") (.str "Untitled Conversation")),
    messages, "claude"⟩

/-- The export version of a Claude parse:
`Array.isArray(data) ? '2025-01' : (data.export_info?.version ||
'unknown')`. -/
def claudeExportVersion (data : Json) : Except String String :=
  if data.isArray then .ok "2025-01"
  else do
    let ei ← getProp data "export_info"
    let ver := if ei.isNullish then Json.undefined else propD ei "version"
    pure (if ver.truthy then jsStrD ver else "unknown")

/-- Embedding of the conversation computation of `ClaudeParser.parse`:
entries are filtered through the validity predicate of the detected
shape, parsed, and conversations with no messages dropped. -/
def claudeRawConversations (nowMs : Int) (data : Json) :
    Except String (List ConversationData) :=
  if data.isArray then do
    let parsed ← (data.elems.filter isValidNewClaudeConversation).mapM
      (claudeParseNewConversation nowMs)
    pure (parsed.filter (fun c => decide (0 < c.messages.length)))
  else do
    let conversations ← getProp data "conversations"
    let parsed ← (conversations.elems.filter isValidClaudeConversation).mapM
      (claudeParseConversation nowMs)
    pure (parsed.filter (fun c => decide (0 < c.messages.length)))

/-- The tail of `ClaudeParser.parse`: the re-validation throw, the
per-shape conversion, and the metadata. -/
def claudeParse (nowMs : Int) (data : Json) : Except String ParseResult := do
  let v ← claudeValidate data
  if !v.isValid then
    Except.error "Invalid Claude export format"
  else do
    let convs ← claudeRawConversations nowMs data
    let ver ← claudeExportVersion data
    pure ⟨convs, ⟨convs.length, dateRangeOf nowMs convs, "claude", ver⟩⟩

/-! ### Gemini adapter parse (`GeminiParser.parse`) -/

/-- Embedding of `GeminiParser.normalizeRole`. -/
def geminiNormalizeRole (author : String) : Role :=
  match author with
  | "user" => .user
  | "model" => .model
  | _ => .user

/-- Embedding of `GeminiParser.parseChat` (the chat has passed
`isValidGeminiChat`). -/
def geminiParseChat (nowMs : Int) (chat : Json) :
    Except String ConversationData := do
  let chatId := propD chat "chat_id"
  let id :=
    if chatId.truthy then jsStrD chatId
    else generateId (jsStrD (propD chat "title")) (jsStrD (propD chat "create_time"))
  let messages ← (propD chat "messages").elems.mapM (fun msg => do
    let content ← cleanContent (propD msg "text")
    let ts ← normalizeTimestamp nowMs (propD msg "timestamp")
    pure (⟨geminiNormalizeRole (jsStrD (propD msg "author")), content, ts⟩ :
      NormalizedMessage))
  pure ⟨id, jsStrD (jsOr (propD chat "title") (.str "Untitled Chat")),
    messages, "gemini"⟩

/-- Embedding of `GeminiParser.parse`. -/
def geminiParse (nowMs : Int) (data : Json) : Except String ParseResult := do
  let v ← geminiValidate data
  if !v.isValid then
    Except.error "Invalid Gemini export format"
  else do
    let chats ← getProp data "chats"
    let parsed ← (chats.elems.filter isValidGeminiChat).mapM (geminiParseChat nowMs)
    let convs := parsed.filter (fun c => decide (0 < c.messages.length))
    let em ← getProp data "export_metadata"
    let verv := if em.isNullish then Json.undefined else propD em "version"
    let ver := if verv.truthy then jsStrD verv else "unknown"
    pure ⟨convs, ⟨convs.length, dateRangeOf nowMs convs, "gemini", ver⟩⟩

/-! ### Perplexity adapter parse (`PerplexityParser.parse`) -/

/-- Embedding of `PerplexityParser.normalizeRole`. -/
def perplexityNormalizeRole (role : String) : Role :=
  match role with
  | "user" => .user
  | "assistant" => .assistant
  | _ => .user

/-- Embedding of `PerplexityParser.processPerplexityContent`: the message
content with an appended, numbered citation list when `citations` is
non-empty. -/
def processPerplexityContent (msg : Json) : Except String String := do
  let content := jsStrD (propD msg "content")
  let citations := propD msg "citations"
  if citations.truthy && jsGtZero (propD citations "length") then
    if !citations.isArray then Except.error "TypeError"
    else
      pure (content ++ "\n\nCitations:\n" ++
        String.intercalate "\n" (citations.elems.enum.map
          (fun p => "[" ++ Nat.repr (p.1 + 1) ++ "] " ++ jsDisplay p.2)))
  else pure content

/-- Embedding of `PerplexityParser.parseThread` (the thread has passed
`isValidPerplexityThread`). -/
def perplexityParseThread (nowMs : Int) (thread : Json) :
    Except String ConversationData := do
  let tid := propD thread "thread_id"
  let id :=
    if tid.truthy then jsStrD tid
    else generateId (jsStrD (propD thread "title")) (jsStrD (propD thread "created_at"))
  let messages ← (propD thread "messages").elems.mapM (fun msg => do
    let raw ← processPerplexityContent msg
    let content ← cleanContent (Json.str raw)
    let ts ← normalizeTimestamp nowMs (propD msg "created_at")
    pure (⟨perplexityNormalizeRole (jsStrD (propD msg "role")), content, ts⟩ :
      NormalizedMessage))
  pure ⟨id, jsStrD (jsOr (propD thread "title") (.str "Untitled Thread")),
    messages, "perplexity"⟩

/-- Embedding of `PerplexityParser.parse`. -/
def perplexityParse (nowMs : Int) (data : Json) : Except String ParseResult := do
  let v ← perplexityValidate data
  if !v.isValid then
    Except.error "Invalid Perplexity export format"
  else do
    let threads ← getProp data "threads"
    let parsed ← (threads.elems.filter isValidPerplexityThread).mapM
      (perplexityParseThread nowMs)
    let convs := parsed.filter (fun c => decide (0 < c.messages.length))
    let ei ← getProp data "export_info"
    let verv := if ei.isNullish then Json.undefined else propD ei "version"
    let ver := if verv.truthy then jsStrD verv else "unknown"
    pure ⟨convs, ⟨convs.length, dateRangeOf nowMs convs, "perplexity", ver⟩⟩

/-! ### Project auto-detection (`autoDetectProjects`) -/

/-- Whether a character is a JavaScript regex word character (`\w`,
ASCII). -/
def isWordChar (c : Char) : Bool :=
  ('a' ≤ c && c ≤ 'z') || ('A' ≤ c && c ≤ 'Z') || ('0' ≤ c && c ≤ '9') || c = '_'

/-- Whether a character is a lowercase ASCII letter. -/
def isLowerAlpha (c : Char) : Bool := 'a' ≤ c && c ≤ 'z'

/-- Whether a character is an uppercase ASCII letter. -/
def isUpperAlpha (c : Char) : Bool := 'A' ≤ c && c ≤ 'Z'

/-- Maximal runs of word characters of a character list (the candidate
`\b...\b` matches). -/
def wordRunsAux : List Char → List Char → List (List Char)
  | [], acc => if acc.isEmpty then [] else [acc.reverse]
  | c :: cs, acc =>
    if isWordChar c then wordRunsAux cs (c :: acc)
    else if acc.isEmpty then wordRunsAux cs []
    else acc.reverse :: wordRunsAux cs []

/-- Maximal word-character runs of a string. -/
def wordRuns (s : String) : List (List Char) := wordRunsAux s.toList []

/-- Model of `text.match(/\b[a-z]+\b/g) || []`: the maximal word runs that
consist solely of lowercase letters (a run containing a digit or
underscore has no word boundary inside it, so it cannot match). -/
def lowerAlphaWords (s : String) : List String :=
  ((wordRuns s).filter (fun r => !r.isEmpty && r.all isLowerAlpha)).map
    (fun r => String.mk r)

/-- Model of `text.match(/\b[A-Z][a-z]+\b/g) || []`: the maximal word runs
formed of one uppercase letter followed by one or more lowercase
letters. -/
def capitalizedWords (s : String) : List String :=
  ((wordRuns s).filter (fun r =>
    match r with
    | c :: rest => isUpperAlpha c && !rest.isEmpty && rest.all isLowerAlpha
    | [] => false)).map (fun r => String.mk r)

/-- The stop-word set of `extractKeywords`. -/
def stopWords : List String :=
  ["the", "a", "an", "and", "or", "but", "in", "on", "at", "to", "for", "of",
   "with", "by", "from", "up", "about", "into", "through", "during", "before",
   "after", "i", "you", "he", "she", "it", "we", "they", "me", "him", "her",
   "us", "them", "this", "that", "these", "those", "what", "which", "who",
   "when", "where", "why", "how", "can", "could", "should", "would", "will",
   "shall", "may", "might", "must", "is", "are", "was", "were", "be", "been",
   "being", "have", "has", "had", "do", "does", "did"]

/-- One `Map` update of the word-frequency count (insertion order of first
occurrences is preserved, as in a JavaScript `Map`). -/
def bumpCount : List (String × Nat) → String → List (String × Nat)
  | [], w => [(w, 1)]
  | (x, n) :: rest, w =>
    if x = w then (x, n + 1) :: rest else (x, n) :: bumpCount rest w

/-- The word-frequency table of a word list. -/
def countWords (ws : List String) : List (String × Nat) :=
  ws.foldl bumpCount []

/-- One `Set.add`: append if not already present. -/
def pushUniq (acc : List String) (w : String) : List String :=
  if acc.contains w then acc else acc ++ [w]

/-- Descending-count comparison of frequency entries (the comparator
`(a, b) => b[1] - a[1]`; `List.insertionSort` is stable like
`Array.prototype.sort`). -/
def countGe (a b : String × Nat) : Prop := b.2 ≤ a.2

instance : DecidableRel countGe := fun a b => by
  unfold countGe; infer_instance

/-- Embedding of `extractKeywords` (`organize-projects` module): frequency
top-20 of the significant lowercase words of the title plus the first 3
message contents, then the lowercased capitalized words longer than 3
characters; the result is the keyword set in `Set` insertion order. -/
def extractKeywords (conversation : ConversationData) : List String :=
  let text := conversation.title ++ " " ++
    String.intercalate " " ((conversation.messages.take 3).map
      (fun m => m.content))
  let words := lowerAlphaWords (asciiLower text)
  let counted := countWords (words.filter
    (fun w => 3 < w.length && !stopWords.contains w))
  let top := ((List.insertionSort countGe counted).take 20).map (fun p => p.1)
  let base := top.foldl pushUniq []
  (capitalizedWords text).foldl
    (fun acc w => if 3 < w.length then pushUniq acc (asciiLower w) else acc)
    base

/-- The `Project` record (`created: new Date()` reads the wall clock and
carries no verified content; it is omitted from the model). -/
structure Project where
  name : String
  conversations : List String
  keywords : List String
deriving Repr, DecidableEq

/-- The `ProjectOrganizeOptions` record: absent fields take the defaults
`keywordThreshold = 3`, `minConversations = 2` at destructuring. -/
structure ProjectOrganizeOptions where
  keywordThreshold : Option Int := none
  minConversations : Option Int := none
deriving Repr, DecidableEq

/-- ASCII upper-casing of a character (`String.prototype.toUpperCase`). -/
def asciiUpperChar (c : Char) : Char :=
  if 'a' ≤ c && c ≤ 'z' then Char.ofNat (c.toNat - 32) else c

/-- The `w.charAt(0).toUpperCase() + w.slice(1)` capitalization. -/
def capitalizeFirst (w : String) : String :=
  match w.toList with
  | [] => ""
  | c :: rest => String.mk (asciiUpperChar c :: rest)

/-- Descending-length comparison of keywords (`(a, b) => b.length -
a.length`, stable). -/
def lenGe (a b : String) : Prop := b.length ≤ a.length

instance : DecidableRel lenGe := fun a b => by
  unfold lenGe; infer_instance

/-- Embedding of `generateProjectName`: the three longest keywords,
capitalized and joined, plus `" Project"`. -/
def generateProjectName (keywords : List String) : String :=
  String.intercalate " "
    (((List.insertionSort lenGe keywords).take 3).map capitalizeFirst) ++
    " Project"

/-- The per-conversation keyword map (`Map.set` in input order; a
duplicate id overwrites the earlier entry). -/
def keywordMapOf (conversations : List ConversationData) :
    List (String × List String) :=
  conversations.map (fun c => (c.id, extractKeywords c))

/-- `Map.get` with the last-set value winning, and `[]` for an absent id
(the source's non-null assertion is only used on present ids). -/
def kwLookup (m : List (String × List String)) (id : String) : List String :=
  (((m.reverse.find? (fun p => p.1 = id)).map (fun p => p.2))).getD []

/-- The inner sweep of `autoDetectProjects` over all conversations: skip
the seed conversation and already-assigned ids, and add any other
conversation sharing at least `kt` keywords with the seed, accumulating
the merged project keyword set.  `assigned` is the set as of the start of
the sweep (it is only updated after the sweep, as in the source). -/
def projectSweep (kwOf : String → List String) (kt : Int)
    (assigned : List String) (convId : String) (myKw : List String) :
    List ConversationData → List String × List String → List String × List String
  | [], acc => acc
  | other :: rest, (related, projKw) =>
    if other.id = convId || assigned.contains other.id then
      projectSweep kwOf kt assigned convId myKw rest (related, projKw)
    else
      let otherKw := kwOf other.id
      let common := myKw.filter (fun k => otherKw.contains k)
      if kt ≤ (common.length : Int) then
        projectSweep kwOf kt assigned convId myKw rest
          (related ++ [other.id], otherKw.foldl pushUniq projKw)
      else
        projectSweep kwOf kt assigned convId myKw rest (related, projKw)

/-- The outer loop of `autoDetectProjects`: greedy first-come clustering
with a mutable assigned set, materializing a `Project` only when the
cluster reaches `mc` members. -/
def detectProjectsLoop (all : List ConversationData)
    (kwOf : String → List String) (kt mc : Int) :
    List ConversationData → List String → List Project → List Project
  | [], _, projects => projects
  | conv :: rest, assigned, projects =>
    if assigned.contains conv.id then
      detectProjectsLoop all kwOf kt mc rest assigned projects
    else
      let myKw := kwOf conv.id
      let (related, projKw) :=
        projectSweep kwOf kt assigned conv.id myKw all ([conv.id], myKw)
      if mc ≤ (related.length : Int) then
        detectProjectsLoop all kwOf kt mc rest (assigned ++ related)
          (projects ++ [⟨generateProjectName projKw, related, projKw.take 10⟩])
      else
        detectProjectsLoop all kwOf kt mc rest assigned projects

/-- Embedding of `autoDetectProjects` (`src/unnamed/part_004`). -/
def autoDetectProjects (conversations : List ConversationData)
    (options : ProjectOrganizeOptions) : List Project :=
  detectProjectsLoop conversations (kwLookup (keywordMapOf conversations))
    (options.keywordThreshold.getD 3) (options.minConversations.getD 2)
    conversations [] []

/-! ### Similarity engine (spec-modelled) -/

/-- Modelled from the spec: the Similarity Engine of §4.3 is not present
under `src/` in this snapshot (only the spec describes it).  Per the
spec, the bag of significant words of a conversation is taken from its
title plus its first `n` messages, stop-words removed and with the
length > 3 filter. -/
def similarityKeywords (n : Nat) (c : ConversationData) : Finset String :=
  ((lowerAlphaWords (asciiLower (c.title ++ " " ++
      String.intercalate " " ((c.messages.take n).map (fun m => m.content))))).filter
    (fun w => 3 < w.length && !stopWords.contains w)).toFinset

/-- Modelled from the spec: `similarity(a, b)` is the Jaccard-style ratio
of shared keywords to the union of the two keyword sets, a number in
`[0, 1]`. -/
def similarity (n : Nat) (a b : ConversationData) : ℚ :=
  mkRat ((similarityKeywords n a ∩ similarityKeywords n b).card : Int)
    ((similarityKeywords n a ∪ similarityKeywords n b).card)

/-! ### Auxiliary definitions used by the theorem statements -/

/-- Whether a value is a number. -/
def Json.isNum : Json → Bool
  | .num _ => true
  | _ => false

/-- Unwrap a computation that is known to succeed (used to name concrete
results in closed witness statements). -/
def exceptOr (d : α) : Except String α → α
  | .ok a => a
  | .error _ => d

/-- A collection-shaped Claude legacy export built from an entry list. -/
def claudeCollectionExport (es : List Json) : Json :=
  Json.obj [("conversations", Json.arr es)]

/-- A collection-shaped Gemini export built from an entry list. -/
def geminiCollectionExport (es : List Json) : Json :=
  Json.obj [("chats", Json.arr es)]

/-- A collection-shaped Perplexity export built from an entry list. -/
def perplexityCollectionExport (es : List Json) : Json :=
  Json.obj [("threads", Json.arr es)]

/-- Whether scanning the entry list cannot throw: every invalid entry is
non-nullish (a `null`/`undefined` invalid entry makes the issue-string
interpolation throw). -/
def claudeScanSafe (es : List Json) : Bool :=
  es.all (fun e => isValidClaudeConversation e || !e.isNullish)

/-- Non-throwing condition of the Gemini entry scan. -/
def geminiScanSafe (es : List Json) : Bool :=
  es.all (fun e => isValidGeminiChat e || !e.isNullish)

/-- Non-throwing condition of the Perplexity entry scan. -/
def perplexityScanSafe (es : List Json) : Bool :=
  es.all (fun e => isValidPerplexityThread e || !e.isNullish)

/-- The issue string of an invalid Gemini chat entry. -/
def geminiIssueOf (chat : Json) : String :=
  "Invalid chat structure: " ++
    jsDisplay (jsOr (propD chat "title") (.str "unknown title"))

/-- The issue string of an invalid Perplexity thread entry. -/
def perplexityIssueOf (thread : Json) : String :=
  "Invalid thread structure: " ++
    jsDisplay (jsOr (propD thread "title") (.str "unknown title"))

/-- The issue list produced by the Claude legacy entry scan. -/
def claudeIssuesOf (es : List Json) : List String :=
  es.filterMap (fun e =>
    if isValidClaudeConversation e then none else some (claudeIssueOf e))

/-- The issue list produced by the Gemini entry scan. -/
def geminiIssuesOf (es : List Json) : List String :=
  es.filterMap (fun e =>
    if isValidGeminiChat e then none else some (geminiIssueOf e))

/-- The issue list produced by the Perplexity entry scan. -/
def perplexityIssuesOf (es : List Json) : List String :=
  es.filterMap (fun e =>
    if isValidPerplexityThread e then none else some (perplexityIssueOf e))

/-- Whether the structural sniff's ChatGPT condition holds
(`data.mapping && typeof data.mapping === 'object'`). -/
def sniffMappingHit (data : Json) : Bool :=
  (propD data "mapping").truthy && (propD data "mapping").typeofObject

/-- Whether the structural sniff's array condition holds for key `k`. -/
def sniffArrayHit (data : Json) (k : String) : Bool :=
  (propD data k).truthy && (propD data k).isArray

/-- The kept/dropped criterion of the ChatGPT extraction loop, expressed
on a node whose property chain does not throw: the node has a truthy
`message` with truthy `content` whose `parts` has length > 0.  The
content text itself is NOT consulted. -/
def chatgptKeptB (node : Json) : Bool :=
  (propD node "message").truthy &&
  (propD (propD node "message") "content").truthy &&
  jsGtZero (propD (propD (propD (propD node "message") "content") "parts") "length")

/-- Whether every extracted message carries a numeric `create_time` (the
domain on which the source's subtraction comparator is well defined). -/
def allNumericCreateTime (msgs : List Json) : Bool :=
  msgs.all (fun m => (propD m "create_time").isNum)

/-- Boolean no-duplicates check on a string list. -/
def nodupStrB : List String → Bool
  | [] => true
  | x :: xs => !xs.contains x && nodupStrB xs

/-- Boolean check that distinct projects share no conversation id. -/
def projectsDisjointB : List Project → Bool
  | [] => true
  | p :: rest =>
    rest.all (fun q => p.conversations.all (fun id => !q.conversations.contains id)) &&
    projectsDisjointB rest

/-- Boolean check that no project lists the same conversation id twice. -/
def projMembersNodupB (ps : List Project) : Bool :=
  ps.all (fun p => nodupStrB p.conversations)

/-- The condition under which the inner sweep adds a conversation to the
cluster seeded at `convId`: not the seed itself, not yet assigned, and
sharing at least `kt` keywords with the seed. -/
def sweepCond (kwOf : String → List String) (kt : Int) (assigned : List String)
    (convId : String) (myKw : List String) (other : ConversationData) : Bool :=
  !(other.id = convId || assigned.contains other.id) &&
  (kt ≤ ((myKw.filter (fun k => (kwOf other.id).contains k)).length : Int))

/-- Two projects share no conversation id. -/
def ProjDisj (p q : Project) : Prop :=
  ∀ id ∈ p.conversations, id ∉ q.conversations

/-! ### Concrete fixtures for witnesses and counterexamples -/

/-- A structurally valid legacy Claude conversation entry. -/
def claudeGoodEntry : Json :=
  Json.obj [("id", Json.str "c1"), ("name", Json.str "T"),
    ("created_at", Json.str "2024-01-01"), ("messages", Json.arr
      [Json.obj [("role", Json.str "human"), ("content", Json.str "hi"),
        ("timestamp", Json.str "2024-01-01T10:00:00Z")]])]

/-- A structurally valid Gemini chat entry. -/
def geminiGoodEntry : Json :=
  Json.obj [("title", Json.str "G"), ("create_time", Json.str "2024-03-01"),
    ("chat_id", Json.str "g1"), ("messages", Json.arr
      [Json.obj [("author", Json.str "user"), ("text", Json.str "q"),
        ("timestamp", Json.str "2024-03-01T00:00:00Z")]])]

/-- A structurally valid Perplexity thread entry. -/
def perplexityGoodEntry : Json :=
  Json.obj [("title", Json.str "P"), ("created_at", Json.str "2024-04-01"),
    ("thread_id", Json.str "p1"), ("messages", Json.arr
      [Json.obj [("role", Json.str "user"), ("content", Json.str "ask"),
        ("created_at", Json.str "2024-04-01T00:00:00Z")]])]

/-- A ChatGPT conversation entry carrying a mapping, as the modern-format
validator recognizes it. -/
def chatgptGoodEntry : Json := Json.obj [("mapping", Json.obj [])]

/-- A malformed (but non-null) entry. -/
def malformedEntry : Json := Json.obj []

/-- A ChatGPT message node payload. -/
def chatgptMsgFix (role : String) (parts : List String) (t : Int) : Json :=
  Json.obj [("id", Json.str "m"), ("author", Json.obj [("role", Json.str role)]),
    ("content", Json.obj [("parts", Json.arr (parts.map Json.str))]),
    ("create_time", Json.num (mkRat t 1))]

/-- A mapping node wrapping a message. -/
def chatgptNodeFix (m : Json) : Json :=
  Json.obj [("id", Json.str "n"), ("message", m), ("children", Json.arr [])]

/-- A mapping whose enumeration order disagrees with chronological order,
with one message-less node. -/
def chatgptMappingFix : Json :=
  Json.obj [("n2", chatgptNodeFix (chatgptMsgFix "assistant" ["world"] 2)),
    ("n1", chatgptNodeFix (chatgptMsgFix "user" ["hello"] 1)),
    ("n3", Json.obj [("id", Json.str "n3"), ("children", Json.arr [])])]

/-- A legacy single-conversation ChatGPT export around
`chatgptMappingFix`. -/
def chatgptLegacyFix : Json := Json.obj [("mapping", chatgptMappingFix)]

/-- The conversation value which the legacy branch of `parse` builds from
`chatgptLegacyFix` (title and creation-time defaults filled in,
`nowMs = 0`). -/
def chatgptC5Conv : Json :=
  Json.obj [("title", Json.str "Untitled Conversation"),
    ("create_time", Json.num (mkRat 0 1000)), ("mapping", chatgptMappingFix)]

/-- A legacy ChatGPT export whose only message has `parts` equal to
`[""]`: structurally present, yet empty after flattening. -/
def chatgptWhitespaceFix : Json :=
  Json.obj [("mapping", Json.obj
    [("n1", chatgptNodeFix (chatgptMsgFix "user" [""] 1))])]

/-- A structurally valid legacy Claude conversation entry with zero
messages. -/
def claudeEmptyMsgsEntry : Json :=
  Json.obj [("id", Json.str "c2"), ("name", Json.str "E"),
    ("created_at", Json.str "2024-01-01"), ("messages", Json.arr [])]

/-- A placeholder conversation for `exceptOr`. -/
def defaultConvData : ConversationData := ⟨"", "", [], ""⟩

/-- A placeholder parse result for `exceptOr`. -/
def emptyParseResult : ParseResult := ⟨[], ⟨0, ⟨"", ""⟩, "", ""⟩⟩

/-- A conversation fixture for the project detector. -/
def projConvFix (id : String) (title : String) : ConversationData :=
  ⟨id, title, [], "claude"⟩

/-- Three conversations sharing four keywords, two of them with the SAME
id `"y"`. -/
def projDupIdFix : List ConversationData :=
  [projConvFix "x" "alpha bravo charlie delta",
   projConvFix "y" "alpha bravo charlie delta",
   projConvFix "y" "alpha bravo charlie delta"]

/-- Two keyword-sharing conversations with distinct ids. -/
def projDistinctFix : List ConversationData :=
  [projConvFix "x" "alpha bravo charlie delta",
   projConvFix "y" "alpha bravo charlie delta"]

/-- A minimal input on which no adapter clears the detection bar and the
structural sniff finds no recognizable key. -/
def sniffMissFix : Json := Json.obj [("foo", Json.num 1)]

/-! ## Infrastructure lemmas -/

/-- Bind of a success computes the continuation. -/
@[simp]
theorem exc_bind_ok (a : α) (f : α → Except String β) :
    (Except.ok a >>= f) = f a := rfl

/-- Bind of a thrown error propagates the error. -/
@[simp]
theorem exc_bind_err (e : String) (f : α → Except String β) :
    ((Except.error e : Except String α) >>= f) = Except.error e := rfl

/-- Pure is `Except.ok`. -/
@[simp]
theorem exc_pure (a : α) : (pure a : Except String α) = Except.ok a := rfl

/-- Inversion of a successful bind. -/
theorem bind_eq_ok_elim {e : Except String α} {f : α → Except String β} {b : β}
    (h : e >>= f = .ok b) : ∃ a, e = .ok a ∧ f a = .ok b := by
  cases e with
  | error _ => simp at h
  | ok a => exact ⟨a, rfl, h⟩

/-- Property access on a non-nullish value never throws and agrees with
the total lookup `propD`. -/
theorem getProp_eq_propD (v : Json) (k : String) (h : v.isNullish = false) :
    getProp v k = .ok (propD v k) := by
  cases v <;> first
    | rfl
    | simp [Json.isNullish] at h

/-- The `create_time` comparison is total. -/
instance : IsTotal Json createTimeLe :=
  ⟨fun a b => le_total (createTimeKey a) (createTimeKey b)⟩

/-- The `create_time` comparison is transitive. -/
instance : IsTrans Json createTimeLe :=
  ⟨fun _ _ _ hab hbc => le_trans hab hbc⟩

/-! ## Claim C2 -/

/-- C2: the claim says every adapter's `validate` returns a
`ParserValidationResult` and never throws, for every input including
collection exports whose entry arrays contain `null` elements.  The code
violates this: on `{"conversations": [null]}` the Claude validator's
invalid-entry branch evaluates `conv.id` on `null` while interpolating
the issue string, raising a `TypeError` instead of returning.  This
theorem evaluates the embedded validator at that failing input.  (The
spec's contract — `validate` must not throw — is the evident intent: the
same loop's validity predicate carefully guards every `null` with
`conv && typeof conv === 'object'`; the unguarded access in the template
literal is the slip.) -/
theorem claude_validate_throws_on_null_entry :
    claudeValidate (Json.obj [("conversations", Json.arr [Json.null])]) =
      .error "TypeError" ∧
    chatgptValidate (Json.obj [("conversations", Json.arr [Json.null])]) =
      .error "TypeError" ∧
    geminiValidate (Json.obj [("chats", Json.arr [Json.null])]) =
      .error "TypeError" ∧
    perplexityValidate (Json.obj [("threads", Json.arr [Json.null])]) =
      .error "TypeError" := ⟨rfl, rfl, rfl, rfl⟩

/-! ## Claim C8 -/

/-- C8: the claim says `normalizeTimestamp` returns an ISO-8601 string and
never throws, for every numeric or string input, with unparsable inputs
falling back to the current time.  The code violates this for numeric
inputs: the number branch `new Date(timestamp * 1000).toISOString()` sits
OUTSIDE the `try`/`catch`, so an epoch-seconds value beyond the
ECMAScript date range (here `1e16`) makes `toISOString` throw a
`RangeError` that propagates to the caller.  The string branch is inside
the `try` and indeed always returns (second and third conjuncts: a
parsable string normalizes, an unparsable one falls back to now).  The
spec states twice that timestamp-normalization failure is silently
defaulted and never propagated, so the unprotected numeric branch is a
code bug. -/
theorem normalizeTimestamp_numeric_overflow_throws :
    normalizeTimestamp 0 (Json.num (mkRat 10000000000000000 1)) =
      .error "RangeError: Invalid time value" ∧
    normalizeTimestamp 0 (Json.str "2024-01-01T10:00:00Z") =
      .ok "2024-01-01T10:00:00.000Z" ∧
    normalizeTimestamp 12345 (Json.str "not a timestamp") =
      .ok (isoOfMs 12345) := ⟨rfl, rfl, rfl⟩

/-! ## Claim C4 -/

/-- C4: the similarity engine is commutative — `similarity(a, b)` equals
`similarity(b, a)` for every pair of conversations (and every message
window `n`), because the shared-keyword intersection and the union it is
divided by are both symmetric in the two keyword sets.  (The similarity
engine itself is modelled from the spec, §4.3; its source is not part of
the repository snapshot.) -/
theorem similarity_comm (n : Nat) (a b : ConversationData) :
    similarity n a b = similarity n b a := by
  unfold similarity
  rw [Finset.inter_comm, Finset.union_comm]

/-! ## Claim C1, counterexample -/

/-- C1 fails as stated: the ChatGPT adapter's export is also a collection
(`{conversations: [...]}`), yet its validator returns the constant
confidence 0.95 whenever at least one entry has a mapping — not the
fraction of structurally valid entries.  With one valid and one
malformed entry the confidence stays 0.95 instead of 1/2, and replacing
a valid entry with a malformed one does not decrease it. -/
theorem chatgpt_confidence_not_entry_fraction :
    chatgptValidate (Json.obj [("conversations",
        Json.arr [chatgptGoodEntry, malformedEntry])]) =
      .ok ⟨true, .chatgpt, mkRat 95 100, []⟩ ∧
    chatgptValidate (Json.obj [("conversations",
        Json.arr [chatgptGoodEntry, chatgptGoodEntry])]) =
      .ok ⟨true, .chatgpt, mkRat 95 100, []⟩ ∧
    mkRat 95 100 ≠ mkRat 1 2 := ⟨rfl, rfl, by decide⟩

/-! ## Claim C3, counterexample -/

/-- C3 fails as stated ("for every input ... returns"): on the input
`null` every validator returns a zero-confidence result, and the
fallback structural sniff then evaluates `data.mapping` on `null`,
throwing a `TypeError`, so the detector throws rather than returning the
unknown-platform result. -/
theorem detectPlatform_throws_on_null :
    detectPlatform Json.null = .error "TypeError" := rfl

/-! ## Claim C6, counterexample -/

/-- C6 fails as stated: a mapping node whose message content is
whitespace-only is NOT dropped.  The extraction condition checks
`content.parts.length > 0`, not the text; a node with `parts: [""]`
survives, and the parsed conversation contains a message whose content
is empty after trimming. -/
theorem chatgpt_whitespace_message_kept :
    (chatgptParse 0 chatgptWhitespaceFix).map
      (fun r => r.conversations.map (fun c => c.messages.map (fun m => m.content))) =
      .ok [[""]] := rfl

/-! ## Claim C10, counterexample -/

/-- C10 fails as stated: when the input contains two different
conversations with the SAME id, the inner sweep adds that id twice to a
single cluster (the assigned set is only updated after the sweep), so a
project's member list can contain the same conversation id twice. -/
theorem autoDetectProjects_duplicate_member_id :
    (autoDetectProjects projDupIdFix {}).map (fun p => p.conversations) =
      [["x", "y", "y"]] ∧
    nodupStrB ["x", "y", "y"] = false := by
  constructor
  · decide
  · decide

/-! ## Claim C1, amended theorem -/

/-- The Claude legacy entry scan counts the structurally valid entries and
collects one issue per invalid entry, provided no invalid entry is
nullish (otherwise it throws, claim C2). -/
theorem claudeScanEntries_eq (es : List Json) (h : claudeScanSafe es = true) :
    claudeScanEntries es =
      .ok (es.countP isValidClaudeConversation, claudeIssuesOf es) := by
  induction es with
  | nil => rfl
  | cons e rest ih =>
    rw [claudeScanSafe, List.all_cons, Bool.and_eq_true] at h
    obtain ⟨he, hrest⟩ := h
    have ihr := ih hrest
    by_cases hv : isValidClaudeConversation e = true
    · simp [claudeScanEntries, hv, ihr, List.countP_cons, claudeIssuesOf]
    · have hnn : e.isNullish = false := by
        rw [Bool.or_eq_true] at he
        rcases he with he | he
        · exact absurd he hv
        · simpa using he
      simp [claudeScanEntries, hv, getProp_eq_propD e "id" hnn, ihr,
        List.countP_cons, claudeIssuesOf, claudeIssueOf]

/-- The Gemini entry scan, characterized like `claudeScanEntries_eq`. -/
theorem geminiScanEntries_eq (es : List Json) (h : geminiScanSafe es = true) :
    geminiScanEntries es =
      .ok (es.countP isValidGeminiChat, geminiIssuesOf es) := by
  induction es with
  | nil => rfl
  | cons e rest ih =>
    rw [geminiScanSafe, List.all_cons, Bool.and_eq_true] at h
    obtain ⟨he, hrest⟩ := h
    have ihr := ih hrest
    by_cases hv : isValidGeminiChat e = true
    · simp [geminiScanEntries, hv, ihr, List.countP_cons, geminiIssuesOf]
    · have hnn : e.isNullish = false := by
        rw [Bool.or_eq_true] at he
        rcases he with he | he
        · exact absurd he hv
        · simpa using he
      simp [geminiScanEntries, hv, getProp_eq_propD e "title" hnn, ihr,
        List.countP_cons, geminiIssuesOf, geminiIssueOf]

/-- The Perplexity entry scan, characterized like
`claudeScanEntries_eq`. -/
theorem perplexityScanEntries_eq (es : List Json)
    (h : perplexityScanSafe es = true) :
    perplexityScanEntries es =
      .ok (es.countP isValidPerplexityThread, perplexityIssuesOf es) := by
  induction es with
  | nil => rfl
  | cons e rest ih =>
    rw [perplexityScanSafe, List.all_cons, Bool.and_eq_true] at h
    obtain ⟨he, hrest⟩ := h
    have ihr := ih hrest
    by_cases hv : isValidPerplexityThread e = true
    · simp [perplexityScanEntries, hv, ihr, List.countP_cons, perplexityIssuesOf]
    · have hnn : e.isNullish = false := by
        rw [Bool.or_eq_true] at he
        rcases he with he | he
        · exact absurd he hv
        · simpa using he
      simp [perplexityScanEntries, hv, getProp_eq_propD e "title" hnn, ihr,
        List.countP_cons, perplexityIssuesOf, perplexityIssueOf]

/-- C1 (amended): for the adapters whose validator actually scores by
entries — Claude (legacy object shape), Gemini and Perplexity — when the
scan cannot throw and at least one entry is structurally valid, the
confidence is exactly (count of valid entries) / (total entries); and
that ratio strictly decreases whenever valid entries are replaced by
malformed ones while at least one valid entry remains (the last
conjunct, with `v' < v ≤ n` the valid counts at equal total `n`).  The
amendment excludes the ChatGPT adapter, whose confidence is the constant
0.95 on collection input (`chatgpt_confidence_not_entry_fraction`), the
all-malformed case, where these validators return the constant 0.2
rather than 0, and throwing inputs (claim C2). -/
theorem collection_adapter_confidence_ratio :
    (∀ es : List Json, claudeScanSafe es = true →
      0 < es.countP isValidClaudeConversation →
      claudeValidate (claudeCollectionExport es) =
        .ok ⟨decide (mkRat 1 2 < mkRat (es.countP isValidClaudeConversation) es.length),
          .claude, mkRat (es.countP isValidClaudeConversation) es.length,
          if mkRat (es.countP isValidClaudeConversation) es.length < 1 then
            claudeIssuesOf es else []⟩) ∧
    (∀ es : List Json, geminiScanSafe es = true →
      0 < es.countP isValidGeminiChat →
      geminiValidate (geminiCollectionExport es) =
        .ok ⟨decide (mkRat 1 2 < mkRat (es.countP isValidGeminiChat) es.length),
          .gemini, mkRat (es.countP isValidGeminiChat) es.length,
          if mkRat (es.countP isValidGeminiChat) es.length < 1 then
            geminiIssuesOf es else []⟩) ∧
    (∀ es : List Json, perplexityScanSafe es = true →
      0 < es.countP isValidPerplexityThread →
      perplexityValidate (perplexityCollectionExport es) =
        .ok ⟨decide (mkRat 1 2 < mkRat (es.countP isValidPerplexityThread) es.length),
          .perplexity, mkRat (es.countP isValidPerplexityThread) es.length,
          if mkRat (es.countP isValidPerplexityThread) es.length < 1 then
            perplexityIssuesOf es else []⟩) ∧
    (∀ n v v' : Nat, v ≤ n → 0 < v' → v' < v →
      mkRat (v' : Int) n < mkRat (v : Int) n) := by
  refine ⟨?_, ?_, ?_, ?_⟩
  · intro es hsafe hpos
    have h1 : claudeValidate (claudeCollectionExport es) =
        claudeValidateLegacy (claudeCollectionExport es) [] := rfl
    rw [h1]
    unfold claudeValidateLegacy
    rw [show getProp (claudeCollectionExport es) "conversations" =
      .ok (Json.arr es) from rfl]
    simp only [exc_bind_ok]
    rw [show (!((Json.arr es).truthy && (Json.arr es).isArray)) = false from rfl]
    simp only [Bool.false_eq_true, if_false]
    rw [show (Json.arr es).elems = es from rfl]
    rw [claudeScanEntries_eq es hsafe]
    simp only [exc_bind_ok]
    rw [if_neg (Nat.pos_iff_ne_zero.mp hpos)]
    simp
  · intro es hsafe hpos
    unfold geminiValidate
    rw [show (!((geminiCollectionExport es).truthy &&
      (geminiCollectionExport es).typeofObject)) = false from rfl]
    simp only [Bool.false_eq_true, if_false]
    rw [show getProp (geminiCollectionExport es) "chats" =
      .ok (Json.arr es) from rfl]
    simp only [exc_bind_ok]
    rw [show (!((Json.arr es).truthy && (Json.arr es).isArray)) = false from rfl]
    simp only [Bool.false_eq_true, if_false]
    rw [show (Json.arr es).elems = es from rfl]
    rw [geminiScanEntries_eq es hsafe]
    simp only [exc_bind_ok]
    rw [if_neg (Nat.pos_iff_ne_zero.mp hpos)]
    simp
  · intro es hsafe hpos
    unfold perplexityValidate
    rw [show (!((perplexityCollectionExport es).truthy &&
      (perplexityCollectionExport es).typeofObject)) = false from rfl]
    simp only [Bool.false_eq_true, if_false]
    rw [show getProp (perplexityCollectionExport es) "threads" =
      .ok (Json.arr es) from rfl]
    simp only [exc_bind_ok]
    rw [show (!((Json.arr es).truthy && (Json.arr es).isArray)) = false from rfl]
    simp only [Bool.false_eq_true, if_false]
    rw [show (Json.arr es).elems = es from rfl]
    rw [perplexityScanEntries_eq es hsafe]
    simp only [exc_bind_ok]
    rw [if_neg (Nat.pos_iff_ne_zero.mp hpos)]
    simp
  · intro n v v' hvn hpos hlt
    have hn : 0 < n := lt_of_lt_of_le (lt_trans hpos hlt) hvn
    have hnq : (0:ℚ) < (n : ℚ) := by exact_mod_cast hn
    rw [Rat.mkRat_eq_div, Rat.mkRat_eq_div]
    rw [div_lt_div_iff_of_pos_right hnq]
    exact_mod_cast hlt

/-- Witness for `collection_adapter_confidence_ratio` at one valid and one
malformed entry per adapter (ratio 1/2), and at the replacement step
2 valid of 2 versus 1 valid of 2. -/
theorem collection_adapter_confidence_ratio_witness :
    claudeValidate (claudeCollectionExport [claudeGoodEntry, malformedEntry]) =
      .ok ⟨false, .claude, mkRat 1 2,
        ["Invalid conversation structure: unknown ID"]⟩ ∧
    geminiValidate (geminiCollectionExport [geminiGoodEntry, malformedEntry]) =
      .ok ⟨false, .gemini, mkRat 1 2, ["Invalid chat structure: unknown title"]⟩ ∧
    perplexityValidate (perplexityCollectionExport
        [perplexityGoodEntry, malformedEntry]) =
      .ok ⟨false, .perplexity, mkRat 1 2,
        ["Invalid thread structure: unknown title"]⟩ ∧
    mkRat (1 : Int) 2 < mkRat (2 : Int) 2 := by
  refine ⟨?_, ?_, ?_, ?_⟩
  · have h := collection_adapter_confidence_ratio.1
      [claudeGoodEntry, malformedEntry] (by decide) (by decide)
    rw [h]
    exact congrArg Except.ok (by decide)
  · have h := collection_adapter_confidence_ratio.2.1
      [geminiGoodEntry, malformedEntry] (by decide) (by decide)
    rw [h]
    exact congrArg Except.ok (by decide)
  · have h := collection_adapter_confidence_ratio.2.2.1
      [perplexityGoodEntry, malformedEntry] (by decide) (by decide)
    rw [h]
    exact congrArg Except.ok (by decide)
  · exact collection_adapter_confidence_ratio.2.2.2 2 2 1
      (le_refl 2) (Nat.zero_lt_one) (Nat.one_lt_two)

/-! ## Claim C3, amended theorem -/

/-- Any successful ChatGPT validation with confidence above the 0.7
detection bar is marked valid (every reachable result of this validator
with confidence above 0.7 has `isValid = true`). -/
theorem chatgptValidate_conf {data : Json} {r : ParserValidationResult}
    (h : chatgptValidate data = .ok r)
    (hc : mkRat 7 10 < r.confidence) : r.isValid = true := by
  have tail : ∀ (iss : List String), chatgptValidateTail data iss = .ok r →
      r.isValid = true := by
    intro iss h
    unfold chatgptValidateTail at h
    obtain ⟨mv, hmv, h⟩ := bind_eq_ok_elim h
    split at h
    · simp only [exc_pure, Except.ok.injEq] at h
      subst h; rfl
    · obtain ⟨tv, htv, h⟩ := bind_eq_ok_elim h
      obtain ⟨cv, hcv, h⟩ := bind_eq_ok_elim h
      split at h
      · simp only [exc_pure, Except.ok.injEq] at h
        subst h; dsimp only at hc; exact absurd hc (by decide)
      · simp only [exc_pure, Except.ok.injEq] at h
        subst h; dsimp only at hc; exact absurd hc (by decide)
  unfold chatgptValidate at h
  split at h
  · simp only [exc_pure, Except.ok.injEq] at h
    subst h; dsimp only at hc; exact absurd hc (by decide)
  · obtain ⟨cv, hcv, h⟩ := bind_eq_ok_elim h
    split at h
    · obtain ⟨b, hb, h⟩ := bind_eq_ok_elim h
      split at h
      · simp only [exc_pure, Except.ok.injEq] at h
        subst h; rfl
      · exact tail _ h
    · exact tail _ h

/-- Like `chatgptValidate_conf`, for the Claude legacy branch: the ratio
result is valid above 1/2, hence above 0.7. -/
theorem claudeValidateLegacy_conf {data : Json} {iss : List String}
    {r : ParserValidationResult} (h : claudeValidateLegacy data iss = .ok r)
    (hc : mkRat 7 10 < r.confidence) : r.isValid = true := by
  unfold claudeValidateLegacy at h
  obtain ⟨cv, hcv, h⟩ := bind_eq_ok_elim h
  split at h
  · simp only [exc_pure, Except.ok.injEq] at h
    subst h; dsimp only at hc; exact absurd hc (by decide)
  · obtain ⟨p, hp, h⟩ := bind_eq_ok_elim h
    obtain ⟨v, iss'⟩ := p
    simp only at h
    split at h
    · simp only [exc_pure, Except.ok.injEq] at h
      subst h; dsimp only at hc; exact absurd hc (by decide)
    · simp only [exc_pure, Except.ok.injEq] at h
      subst h
      simp only at hc ⊢
      exact decide_eq_true (lt_trans (by decide) hc)

/-- Like `chatgptValidate_conf`, for the Claude validator. -/
theorem claudeValidate_conf {data : Json} {r : ParserValidationResult}
    (h : claudeValidate data = .ok r)
    (hc : mkRat 7 10 < r.confidence) : r.isValid = true := by
  unfold claudeValidate at h
  split at h
  · simp only [exc_pure, Except.ok.injEq] at h
    subst h; dsimp only at hc; exact absurd hc (by decide)
  · split at h
    · obtain ⟨b, hb, h⟩ := bind_eq_ok_elim h
      split at h
      · simp only [exc_pure, Except.ok.injEq] at h
        subst h; rfl
      · exact claudeValidateLegacy_conf h hc
    · exact claudeValidateLegacy_conf h hc

/-- Like `chatgptValidate_conf`, for the Gemini validator. -/
theorem geminiValidate_conf {data : Json} {r : ParserValidationResult}
    (h : geminiValidate data = .ok r)
    (hc : mkRat 7 10 < r.confidence) : r.isValid = true := by
  unfold geminiValidate at h
  split at h
  · simp only [exc_pure, Except.ok.injEq] at h
    subst h; dsimp only at hc; exact absurd hc (by decide)
  · obtain ⟨cv, hcv, h⟩ := bind_eq_ok_elim h
    split at h
    · simp only [exc_pure, Except.ok.injEq] at h
      subst h; dsimp only at hc; exact absurd hc (by decide)
    · obtain ⟨p, hp, h⟩ := bind_eq_ok_elim h
      obtain ⟨v, iss'⟩ := p
      simp only at h
      split at h
      · simp only [exc_pure, Except.ok.injEq] at h
        subst h; dsimp only at hc; exact absurd hc (by decide)
      · simp only [exc_pure, Except.ok.injEq] at h
        subst h
        simp only at hc ⊢
        exact decide_eq_true (lt_trans (by decide) hc)

/-- Like `chatgptValidate_conf`, for the Perplexity validator. -/
theorem perplexityValidate_conf {data : Json} {r : ParserValidationResult}
    (h : perplexityValidate data = .ok r)
    (hc : mkRat 7 10 < r.confidence) : r.isValid = true := by
  unfold perplexityValidate at h
  split at h
  · simp only [exc_pure, Except.ok.injEq] at h
    subst h; dsimp only at hc; exact absurd hc (by decide)
  · obtain ⟨cv, hcv, h⟩ := bind_eq_ok_elim h
    split at h
    · simp only [exc_pure, Except.ok.injEq] at h
      subst h; dsimp only at hc; exact absurd hc (by decide)
    · obtain ⟨p, hp, h⟩ := bind_eq_ok_elim h
      obtain ⟨v, iss'⟩ := p
      simp only at h
      split at h
      · simp only [exc_pure, Except.ok.injEq] at h
        subst h; dsimp only at hc; exact absurd hc (by decide)
      · simp only [exc_pure, Except.ok.injEq] at h
        subst h
        simp only at hc ⊢
        exact decide_eq_true (lt_trans (by decide) hc)

/-- C3 (amended): on every input where the four validators return rather
than throw (the amendment: some inputs make them throw, see
`detectPlatform_throws_on_null` and claim C2), the detector runs them in
the fixed registration order ChatGPT, Claude, Gemini, Perplexity and
returns the first result whose confidence exceeds 0.7 (the source also
demands `isValid`, but every reachable above-bar result is valid, by the
`..._conf` lemmas); if none clears the bar it falls back to the generic
structural sniff `baseDetectPlatform`; and when the sniff finds neither a
`mapping` object nor a `conversations`/`chats`/`threads` array (second
conjunct), the result is `isValid: false, platform: unknown`. -/
theorem detectPlatform_priority_and_fallback (data : Json)
    (r1 r2 r3 r4 : ParserValidationResult)
    (h1 : chatgptValidate data = .ok r1) (h2 : claudeValidate data = .ok r2)
    (h3 : geminiValidate data = .ok r3) (h4 : perplexityValidate data = .ok r4) :
    (detectPlatform data =
      if mkRat 7 10 < r1.confidence then .ok r1
      else if mkRat 7 10 < r2.confidence then .ok r2
      else if mkRat 7 10 < r3.confidence then .ok r3
      else if mkRat 7 10 < r4.confidence then .ok r4
      else baseDetectPlatform data) ∧
    (data.isNullish = false → sniffMappingHit data = false →
      sniffArrayHit data "conversations" = false →
      sniffArrayHit data "chats" = false →
      sniffArrayHit data "threads" = false →
      baseDetectPlatform data = .ok ⟨false, .unknown, 0,
        ["Unknown export format - no recognizable structure found"]⟩) := by
  constructor
  · unfold detectPlatform
    rw [h1]
    simp only [exc_bind_ok]
    by_cases hc1 : mkRat 7 10 < r1.confidence
    · rw [if_pos hc1, chatgptValidate_conf h1 hc1, decide_eq_true hc1]
      rfl
    · rw [if_neg hc1, decide_eq_false hc1, Bool.and_false]
      simp only [Bool.false_eq_true, if_false]
      rw [h2]
      simp only [exc_bind_ok]
      by_cases hc2 : mkRat 7 10 < r2.confidence
      · rw [if_pos hc2, claudeValidate_conf h2 hc2, decide_eq_true hc2]
        rfl
      · rw [if_neg hc2, decide_eq_false hc2, Bool.and_false]
        simp only [Bool.false_eq_true, if_false]
        rw [h3]
        simp only [exc_bind_ok]
        by_cases hc3 : mkRat 7 10 < r3.confidence
        · rw [if_pos hc3, geminiValidate_conf h3 hc3, decide_eq_true hc3]
          rfl
        · rw [if_neg hc3, decide_eq_false hc3, Bool.and_false]
          simp only [Bool.false_eq_true, if_false]
          rw [h4]
          simp only [exc_bind_ok]
          by_cases hc4 : mkRat 7 10 < r4.confidence
          · rw [if_pos hc4, perplexityValidate_conf h4 hc4, decide_eq_true hc4]
            rfl
          · rw [if_neg hc4, decide_eq_false hc4, Bool.and_false]
            simp only [Bool.false_eq_true, if_false]
  · intro hnn hm hcv hch hth
    unfold baseDetectPlatform
    rw [getProp_eq_propD data "mapping" hnn]
    simp only [exc_bind_ok]
    rw [show ((propD data "mapping").truthy && (propD data "mapping").typeofObject) =
      sniffMappingHit data from rfl, hm]
    simp only [Bool.false_eq_true, if_false]
    rw [getProp_eq_propD data "conversations" hnn]
    simp only [exc_bind_ok]
    rw [show ((propD data "conversations").truthy && (propD data "conversations").isArray) =
      sniffArrayHit data "conversations" from rfl, hcv]
    simp only [Bool.false_eq_true, if_false]
    rw [getProp_eq_propD data "chats" hnn]
    simp only [exc_bind_ok]
    rw [show ((propD data "chats").truthy && (propD data "chats").isArray) =
      sniffArrayHit data "chats" from rfl, hch]
    simp only [Bool.false_eq_true, if_false]
    rw [getProp_eq_propD data "threads" hnn]
    simp only [exc_bind_ok]
    rw [show ((propD data "threads").truthy && (propD data "threads").isArray) =
      sniffArrayHit data "threads" from rfl, hth]
    simp only [Bool.false_eq_true, if_false]
    rfl

/-- Witness for `detectPlatform_priority_and_fallback`: a Perplexity
export is picked up by the fourth validator after the first three score
0, and an unrecognizable object falls through to the sniff and comes back
unknown and invalid. -/
theorem detectPlatform_priority_and_fallback_witness :
    detectPlatform (perplexityCollectionExport [perplexityGoodEntry]) =
      .ok ⟨true, .perplexity, mkRat 1 1, []⟩ ∧
    detectPlatform sniffMissFix = .ok ⟨false, .unknown, 0,
      ["Unknown export format - no recognizable structure found"]⟩ := by
  constructor
  · have h := (detectPlatform_priority_and_fallback
      (perplexityCollectionExport [perplexityGoodEntry])
      ⟨false, .unknown, 0, ["No ChatGPT format indicators found"]⟩
      ⟨false, .unknown, 0, ["Missing or invalid conversations array"]⟩
      ⟨false, .unknown, 0, ["Missing or invalid chats array"]⟩
      ⟨true, .perplexity, mkRat 1 1, []⟩ rfl rfl rfl rfl).1
    rw [h, if_neg (by decide), if_neg (by decide), if_neg (by decide),
      if_pos (by decide)]
  · have hall := detectPlatform_priority_and_fallback sniffMissFix
      ⟨false, .unknown, 0, ["No ChatGPT format indicators found"]⟩
      ⟨false, .unknown, 0, ["Missing or invalid conversations array"]⟩
      ⟨false, .unknown, 0, ["Missing or invalid chats array"]⟩
      ⟨false, .unknown, 0, ["Missing or invalid threads array"]⟩
      rfl rfl rfl rfl
    rw [hall.1, if_neg (by decide), if_neg (by decide), if_neg (by decide),
      if_neg (by decide)]
    exact hall.2 rfl rfl rfl rfl rfl

/-! ## Claim C5 -/

/-- Truthiness excludes the nullish values. -/
theorem truthy_not_nullish (v : Json) (h : v.truthy = true) :
    v.isNullish = false := by
  cases v <;> first | rfl | simp [Json.truthy] at h

/-- C5: for every ChatGPT conversation and every enumeration order of the
node-id keys of its mapping (the mapping's field list is arbitrary), the
extracted message list is sorted in ascending order of the source
messages' `create_time`, and the message list of the conversation
produced by `parseConversation` is exactly the normalization of that
sorted list — so parse output order equals chronological source order,
not node graph order.  The all-numeric hypothesis restricts to the domain
where the source's subtraction comparator is well defined. -/
theorem chatgpt_messages_sorted_by_create_time (nowMs : Int)
    (conv mapping : Json) (msgs : List Json) (c : ConversationData)
    (hmap : getProp conv "mapping" = .ok mapping)
    (hext : chatgptExtractMessages mapping = .ok msgs)
    (hnum : allNumericCreateTime msgs = true)
    (hparse : chatgptParseConversation nowMs conv = .ok c) :
    List.Sorted createTimeLe msgs ∧
    msgs.mapM (chatgptNormMessage nowMs) = .ok c.messages := by
  constructor
  · unfold chatgptExtractMessages at hext
    obtain ⟨entries, hent, hext⟩ := bind_eq_ok_elim hext
    obtain ⟨ms, hms, hext⟩ := bind_eq_ok_elim hext
    simp only [exc_pure, Except.ok.injEq] at hext
    subst hext
    exact List.sorted_insertionSort createTimeLe ms
  · unfold chatgptParseConversation at hparse
    rw [hmap] at hparse
    simp only [exc_bind_ok] at hparse
    rw [hext] at hparse
    simp only [exc_bind_ok] at hparse
    obtain ⟨cid, hcid, hparse⟩ := bind_eq_ok_elim hparse
    split at hparse
    case isTrue =>
      simp only [exc_pure, exc_bind_ok] at hparse
      obtain ⟨tv, htv, hparse⟩ := bind_eq_ok_elim hparse
      obtain ⟨msv, hmsv, hparse⟩ := bind_eq_ok_elim hparse
      simp only [exc_pure, Except.ok.injEq] at hparse
      subst hparse
      simpa using hmsv
    case isFalse =>
      obtain ⟨tv0, htv0, hparse⟩ := bind_eq_ok_elim hparse
      obtain ⟨ct, hct, hparse⟩ := bind_eq_ok_elim hparse
      obtain ⟨cts, hcts, hparse⟩ := bind_eq_ok_elim hparse
      simp only [exc_pure, exc_bind_ok] at hparse
      obtain ⟨tv, htv, hparse⟩ := bind_eq_ok_elim hparse
      obtain ⟨msv, hmsv, hparse⟩ := bind_eq_ok_elim hparse
      simp only [exc_pure, Except.ok.injEq] at hparse
      subst hparse
      simpa using hmsv

/-- Witness for `chatgpt_messages_sorted_by_create_time` at a mapping
whose enumeration order (creation times 2, 1) disagrees with
chronological order. -/
theorem chatgpt_messages_sorted_by_create_time_witness :
    List.Sorted createTimeLe
      (exceptOr [] (chatgptExtractMessages chatgptMappingFix)) ∧
    (exceptOr [] (chatgptExtractMessages chatgptMappingFix)).mapM
        (chatgptNormMessage 0) =
      .ok (exceptOr defaultConvData
        (chatgptParseConversation 0 chatgptC5Conv)).messages :=
  chatgpt_messages_sorted_by_create_time 0 chatgptC5Conv chatgptMappingFix
    (exceptOr [] (chatgptExtractMessages chatgptMappingFix))
    (exceptOr defaultConvData (chatgptParseConversation 0 chatgptC5Conv))
    rfl rfl (by decide) rfl

/-! ## Claim C6, amended theorem -/

/-- C6 (amended): the ChatGPT extraction keeps a mapping node exactly when
the node has a truthy `message` with truthy `content` whose `parts` array
is non-empty (`parts.length > 0`) — the criterion is the length of the
parts array, NOT the message text, so a message whose parts are
empty/whitespace strings is retained and can reach the output with
empty trimmed content (`chatgpt_whitespace_message_kept`).  Nodes with no
message, no content, or an empty parts array are dropped. -/
theorem chatgpt_extraction_drop_criterion (node : Json) (o : Option Json)
    (h : chatgptNodeMessage node = .ok o) : o.isSome = chatgptKeptB node := by
  unfold chatgptNodeMessage at h
  obtain ⟨m, hm, h⟩ := bind_eq_ok_elim h
  have hnn : node.isNullish = false := by
    cases node <;> first | rfl | (exact absurd hm (by simp [getProp]))
  rw [getProp_eq_propD _ _ hnn, Except.ok.injEq] at hm
  subst hm
  unfold chatgptKeptB
  split at h
  case isTrue hmt =>
    simp only [exc_pure, Except.ok.injEq] at h
    subst h
    rw [Bool.not_eq_true'] at hmt
    simp [hmt]
  case isFalse hmt =>
    have hmtruthy : (propD node "message").truthy = true := by simpa using hmt
    obtain ⟨c, hc, h⟩ := bind_eq_ok_elim h
    rw [getProp_eq_propD _ _ (truthy_not_nullish _ hmtruthy), Except.ok.injEq] at hc
    subst hc
    split at h
    case isTrue hct =>
      simp only [exc_pure, Except.ok.injEq] at h
      subst h
      rw [Bool.not_eq_true'] at hct
      simp [hmtruthy, hct]
    case isFalse hct =>
      have hctruthy : (propD (propD node "message") "content").truthy = true := by
        simpa using hct
      obtain ⟨parts, hparts, h⟩ := bind_eq_ok_elim h
      rw [getProp_eq_propD _ _ (truthy_not_nullish _ hctruthy),
        Except.ok.injEq] at hparts
      subst hparts
      obtain ⟨len, hlen, h⟩ := bind_eq_ok_elim h
      have hpnn :
          (propD (propD (propD node "message") "content") "parts").isNullish = false := by
        cases hp : (propD (propD (propD node "message") "content") "parts") <;>
          rw [hp] at hlen <;> first | rfl | (exact absurd hlen (by simp [getProp]))
      rw [getProp_eq_propD _ _ hpnn, Except.ok.injEq] at hlen
      subst hlen
      simp only [exc_pure, Except.ok.injEq] at h
      subst h
      simp only [hmtruthy, hctruthy, Bool.true_and]
      split <;> simp [*]

/-- Witness for `chatgpt_extraction_drop_criterion`: a node whose message
has `parts: [""]` is kept, and a node with no message is dropped. -/
theorem chatgpt_extraction_drop_criterion_witness :
    (exceptOr none (chatgptNodeMessage
        (chatgptNodeFix (chatgptMsgFix "user" [""] 1)))).isSome =
      chatgptKeptB (chatgptNodeFix (chatgptMsgFix "user" [""] 1)) ∧
    (exceptOr none (chatgptNodeMessage malformedEntry)).isSome =
      chatgptKeptB malformedEntry :=
  ⟨chatgpt_extraction_drop_criterion _ _ rfl,
   chatgpt_extraction_drop_criterion _ _ rfl⟩

/-! ## Claim C7 -/

/-- C7: for every input accepted by any adapter's `parse` (all four
adapters), every conversation in the returned `conversations` array has
at least one message — conversations whose extracted message list is
empty are filtered out before the result is assembled. -/
theorem parse_conversations_nonempty (nowMs : Int) (data : Json) :
    (∀ r : ParseResult, chatgptParse nowMs data = .ok r →
      r.conversations.all (fun conv => decide (0 < conv.messages.length)) = true) ∧
    (∀ r : ParseResult, claudeParse nowMs data = .ok r →
      r.conversations.all (fun conv => decide (0 < conv.messages.length)) = true) ∧
    (∀ r : ParseResult, geminiParse nowMs data = .ok r →
      r.conversations.all (fun conv => decide (0 < conv.messages.length)) = true) ∧
    (∀ r : ParseResult, perplexityParse nowMs data = .ok r →
      r.conversations.all (fun conv => decide (0 < conv.messages.length)) = true) := by
  refine ⟨?_, ?_, ?_, ?_⟩
  · intro r h
    unfold chatgptParse at h
    obtain ⟨convs, hconvs, h⟩ := bind_eq_ok_elim h
    obtain ⟨ver, hver, h⟩ := bind_eq_ok_elim h
    simp only [exc_pure, Except.ok.injEq] at h
    subst h
    rw [List.all_eq_true]
    intro c hc
    exact (List.mem_filter.mp hc).2
  · intro r h
    unfold claudeParse at h
    obtain ⟨v, hv, h⟩ := bind_eq_ok_elim h
    split at h
    · simp at h
    · obtain ⟨convs, hconvs, h⟩ := bind_eq_ok_elim h
      obtain ⟨ver, hver, h⟩ := bind_eq_ok_elim h
      simp only [exc_pure, Except.ok.injEq] at h
      subst h
      rw [List.all_eq_true]
      intro c hc
      dsimp only at hc
      unfold claudeRawConversations at hconvs
      split at hconvs
      · obtain ⟨parsed, hparsed, hconvs⟩ := bind_eq_ok_elim hconvs
        simp only [exc_pure, Except.ok.injEq] at hconvs
        subst hconvs
        exact (List.mem_filter.mp hc).2
      · obtain ⟨cs, hcs, hconvs⟩ := bind_eq_ok_elim hconvs
        obtain ⟨parsed, hparsed, hconvs⟩ := bind_eq_ok_elim hconvs
        simp only [exc_pure, Except.ok.injEq] at hconvs
        subst hconvs
        exact (List.mem_filter.mp hc).2
  · intro r h
    unfold geminiParse at h
    obtain ⟨v, hv, h⟩ := bind_eq_ok_elim h
    split at h
    · simp at h
    · obtain ⟨cs, hcs, h⟩ := bind_eq_ok_elim h
      obtain ⟨parsed, hparsed, h⟩ := bind_eq_ok_elim h
      obtain ⟨em, hem, h⟩ := bind_eq_ok_elim h
      simp only [exc_pure, Except.ok.injEq] at h
      subst h
      rw [List.all_eq_true]
      intro c hc
      exact (List.mem_filter.mp hc).2
  · intro r h
    unfold perplexityParse at h
    obtain ⟨v, hv, h⟩ := bind_eq_ok_elim h
    split at h
    · simp at h
    · obtain ⟨cs, hcs, h⟩ := bind_eq_ok_elim h
      obtain ⟨parsed, hparsed, h⟩ := bind_eq_ok_elim h
      obtain ⟨em, hem, h⟩ := bind_eq_ok_elim h
      simp only [exc_pure, Except.ok.injEq] at h
      subst h
      rw [List.all_eq_true]
      intro c hc
      exact (List.mem_filter.mp hc).2

/-- Witness for `parse_conversations_nonempty` on a valid export per
adapter (the Claude one includes a valid conversation with zero messages,
which the filter removes). -/
theorem parse_conversations_nonempty_witness :
    (exceptOr emptyParseResult (chatgptParse 0 chatgptLegacyFix)).conversations.all
      (fun conv => decide (0 < conv.messages.length)) = true ∧
    (exceptOr emptyParseResult (claudeParse 0 (claudeCollectionExport
        [claudeGoodEntry, claudeEmptyMsgsEntry]))).conversations.all
      (fun conv => decide (0 < conv.messages.length)) = true ∧
    (exceptOr emptyParseResult (geminiParse 0 (geminiCollectionExport
        [geminiGoodEntry]))).conversations.all
      (fun conv => decide (0 < conv.messages.length)) = true ∧
    (exceptOr emptyParseResult (perplexityParse 0 (perplexityCollectionExport
        [perplexityGoodEntry]))).conversations.all
      (fun conv => decide (0 < conv.messages.length)) = true :=
  ⟨(parse_conversations_nonempty 0 chatgptLegacyFix).1 _ rfl,
   (parse_conversations_nonempty 0 (claudeCollectionExport
     [claudeGoodEntry, claudeEmptyMsgsEntry])).2.1 _ rfl,
   (parse_conversations_nonempty 0 (geminiCollectionExport
     [geminiGoodEntry])).2.2.1 _ rfl,
   (parse_conversations_nonempty 0 (perplexityCollectionExport
     [perplexityGoodEntry])).2.2.2 _ rfl⟩


/-! ## Claim C9 -/

/-- Every project pushed by the greedy loop satisfies the minimum-size
guard, and projects already satisfying it are preserved. -/
theorem detectProjectsLoop_all_min (all : List ConversationData)
    (kwOf : String → List String) (kt mc : Int) :
    ∀ (rem : List ConversationData) (assigned : List String)
      (projects : List Project),
    projects.all (fun p => decide (mc ≤ (p.conversations.length : Int))) = true →
    (detectProjectsLoop all kwOf kt mc rem assigned projects).all
      (fun p => decide (mc ≤ (p.conversations.length : Int))) = true := by
  intro rem
  induction rem with
  | nil =>
    intro assigned projects hacc
    simpa [detectProjectsLoop] using hacc
  | cons conv rest ih =>
    intro assigned projects hacc
    unfold detectProjectsLoop
    split
    · exact ih _ _ hacc
    · dsimp only
      cases hp : projectSweep kwOf kt assigned conv.id (kwOf conv.id) all
        ([conv.id], kwOf conv.id) with
      | mk related projKw =>
        dsimp only
        split
        case isTrue hmc =>
          apply ih
          rw [List.all_append, hacc, Bool.true_and]
          simpa using hmc
        case isFalse => exact ih _ _ hacc

/-- C9: for every conversation list and every options value, every
`Project` returned by `autoDetectProjects` has at least
`minConversations` member conversations (with the destructuring default
2); in particular, under the default options a cluster of exactly one
conversation never appears as a Project (second conjunct). -/
theorem autoDetectProjects_min_size :
    (∀ (conversations : List ConversationData)
       (options : ProjectOrganizeOptions),
      (autoDetectProjects conversations options).all
        (fun p => decide (options.minConversations.getD 2 ≤
          (p.conversations.length : Int))) = true) ∧
    (∀ conversations : List ConversationData,
      (autoDetectProjects conversations {}).all
        (fun p => decide (p.conversations.length ≠ 1)) = true) := by
  constructor
  · intro conversations options
    exact detectProjectsLoop_all_min conversations _ _ _ conversations [] [] rfl
  · intro conversations
    have h := detectProjectsLoop_all_min conversations
      (kwLookup (keywordMapOf conversations)) 3 2 conversations [] [] rfl
    rw [List.all_eq_true] at h ⊢
    intro p hp
    have h2 := h p hp
    rw [decide_eq_true_iff] at h2 ⊢
    omega

/-! ## Claim C10, amended theorem -/

/-- The first component of the sweep accumulator is the seed list plus the
ids of exactly the conversations passing `sweepCond`, in input order. -/
theorem projectSweep_fst (kwOf : String → List String) (kt : Int)
    (assigned : List String) (convId : String) (myKw : List String) :
    ∀ (others : List ConversationData) (related projKw : List String),
    (projectSweep kwOf kt assigned convId myKw others (related, projKw)).1 =
      related ++ (others.filter (sweepCond kwOf kt assigned convId myKw)).map
        (fun o => o.id) := by
  intro others
  induction others with
  | nil => intro related projKw; simp [projectSweep]
  | cons o rest ih =>
    intro related projKw
    unfold projectSweep
    split
    case isTrue h1 =>
      have hc : sweepCond kwOf kt assigned convId myKw o = false := by
        unfold sweepCond
        rw [h1]
        rfl
      rw [ih, List.filter_cons_of_neg (by simp [hc])]
    case isFalse h1 =>
      have h1f : (decide (o.id = convId) || assigned.contains o.id) = false := by
        simpa using h1
      dsimp only
      split
      case isTrue h2 =>
        have hc : sweepCond kwOf kt assigned convId myKw o = true := by
          unfold sweepCond
          rw [h1f]
          simpa using h2
        rw [ih, List.filter_cons_of_pos (by simp [hc])]
        simp
      case isFalse h2 =>
        have hc : sweepCond kwOf kt assigned convId myKw o = false := by
          unfold sweepCond
          rw [h1f]
          simpa using h2
        rw [ih, List.filter_cons_of_neg (by simp [hc])]

/-- Boolean and propositional no-duplicates checks agree. -/
theorem nodupStrB_iff (l : List String) : nodupStrB l = true ↔ l.Nodup := by
  induction l with
  | nil => simp [nodupStrB]
  | cons x xs ih => simp [nodupStrB, ih, List.nodup_cons]

/-- Boolean and propositional project disjointness agree. -/
theorem projectsDisjointB_iff (ps : List Project) :
    projectsDisjointB ps = true ↔ List.Pairwise ProjDisj ps := by
  induction ps with
  | nil => simp [projectsDisjointB]
  | cons p rest ih =>
    simp [projectsDisjointB, ih, List.pairwise_cons, ProjDisj]

/-- Invariant of the greedy loop: when the input ids are distinct, every
cluster it materializes is duplicate-free and disjoint from all earlier
ones (members of earlier projects are in the assigned set, and a sweep
only picks unassigned ids distinct from its seed). -/
theorem detectLoop_disjoint (all : List ConversationData)
    (kwOf : String → List String) (kt mc : Int)
    (hids : (all.map (fun c => c.id)).Nodup) :
    ∀ (rem : List ConversationData) (assigned : List String)
      (projects : List Project),
    (∀ p ∈ projects, ∀ id ∈ p.conversations, id ∈ assigned) →
    (∀ p ∈ projects, p.conversations.Nodup) →
    List.Pairwise ProjDisj projects →
    List.Pairwise ProjDisj (detectProjectsLoop all kwOf kt mc rem assigned projects) ∧
    (∀ p ∈ detectProjectsLoop all kwOf kt mc rem assigned projects,
      p.conversations.Nodup) := by
  intro rem
  induction rem with
  | nil =>
    intro assigned projects h1 h2 h3
    exact ⟨by simpa [detectProjectsLoop] using h3,
           by simpa [detectProjectsLoop] using h2⟩
  | cons conv rest ih =>
    intro assigned projects h1 h2 h3
    unfold detectProjectsLoop
    split
    · exact ih assigned projects h1 h2 h3
    case isFalse hna =>
      dsimp only
      cases hp : projectSweep kwOf kt assigned conv.id (kwOf conv.id) all
        ([conv.id], kwOf conv.id) with
      | mk related projKw =>
        dsimp only
        split
        case isFalse => exact ih assigned projects h1 h2 h3
        case isTrue hmc =>
          have hrel : related = conv.id ::
              (all.filter (sweepCond kwOf kt assigned conv.id (kwOf conv.id))).map
                (fun o => o.id) := by
            have hfst := projectSweep_fst kwOf kt assigned conv.id (kwOf conv.id)
              all [conv.id] (kwOf conv.id)
            rw [hp] at hfst
            simpa using hfst
          have hfids_nodup :
              ((all.filter (sweepCond kwOf kt assigned conv.id (kwOf conv.id))).map
                (fun o => o.id)).Nodup :=
            hids.sublist (List.Sublist.map _ (List.filter_sublist all))
          have hconv_notin : conv.id ∉
              ((all.filter (sweepCond kwOf kt assigned conv.id (kwOf conv.id))).map
                (fun o => o.id)) := by
            intro hmem
            obtain ⟨o, homem, hoid⟩ := List.mem_map.mp hmem
            have hcond := (List.mem_filter.mp homem).2
            rw [sweepCond, Bool.and_eq_true] at hcond
            have := hcond.1
            simp [hoid] at this
          have hrel_nodup : related.Nodup := by
            rw [hrel]
            exact List.nodup_cons.mpr ⟨hconv_notin, hfids_nodup⟩
          have hfresh : ∀ id ∈ related, id ∉ assigned := by
            intro id hid
            rw [hrel] at hid
            rcases List.mem_cons.mp hid with hid | hid
            · subst hid
              simpa using hna
            · obtain ⟨o, homem, hoid⟩ := List.mem_map.mp hid
              have hcond := (List.mem_filter.mp homem).2
              rw [sweepCond, Bool.and_eq_true] at hcond
              have h := hcond.1
              subst hoid
              simp at h
              exact h.2
          apply ih (assigned ++ related)
          · intro p hp' id hid
            rcases List.mem_append.mp hp' with hp' | hp'
            · exact List.mem_append_left _ (h1 p hp' id hid)
            · rw [List.mem_singleton] at hp'
              subst hp'
              exact List.mem_append_right _ hid
          · intro p hp'
            rcases List.mem_append.mp hp' with hp' | hp'
            · exact h2 p hp'
            · rw [List.mem_singleton] at hp'
              subst hp'
              exact hrel_nodup
          · rw [List.pairwise_append]
            refine ⟨h3, by simp, ?_⟩
            intro p hp' q hq
            rw [List.mem_singleton] at hq
            subst hq
            intro id hid
            have hassigned := h1 p hp' id hid
            intro hidq
            exact hfresh id hidq hassigned

/-- C10 (amended): provided the input conversations have pairwise distinct
ids, the Projects returned by `autoDetectProjects` are pairwise disjoint
(no conversation id is a member of two different Projects) and no
Project's member list contains the same id twice.  The distinct-ids
hypothesis is necessary: with duplicate input ids a single Project can
list an id twice (`autoDetectProjects_duplicate_member_id`). -/
theorem autoDetectProjects_disjoint_of_nodup_ids
    (conversations : List ConversationData) (options : ProjectOrganizeOptions)
    (h : nodupStrB (conversations.map (fun c => c.id)) = true) :
    projectsDisjointB (autoDetectProjects conversations options) = true ∧
    projMembersNodupB (autoDetectProjects conversations options) = true := by
  have hids := (nodupStrB_iff _).mp h
  have hmain := detectLoop_disjoint conversations
    (kwLookup (keywordMapOf conversations)) (options.keywordThreshold.getD 3)
    (options.minConversations.getD 2) hids conversations [] []
    (by simp) (by simp) (by simp)
  constructor
  · exact (projectsDisjointB_iff _).mpr hmain.1
  · rw [projMembersNodupB, List.all_eq_true]
    intro p hp
    exact (nodupStrB_iff _).mpr (hmain.2 p hp)

/-- Witness for `autoDetectProjects_disjoint_of_nodup_ids` on two
keyword-sharing conversations with distinct ids (they form one
project). -/
theorem autoDetectProjects_disjoint_of_nodup_ids_witness :
    nodupStrB (projDistinctFix.map (fun c => c.id)) = true ∧
    projectsDisjointB (autoDetectProjects projDistinctFix {}) = true ∧
    projMembersNodupB (autoDetectProjects projDistinctFix {}) = true :=
  ⟨by decide,
   (autoDetectProjects_disjoint_of_nodup_ids projDistinctFix {} (by decide)).1,
   (autoDetectProjects_disjoint_of_nodup_ids projDistinctFix {} (by decide)).2⟩
